import Mathlib

/-!
Verification development for the `libls` core of `inetutils-ping`
(`src/libls/ls.c`).  The C data model and operations are shallowly
embedded as executable Lean definitions, translated from the source:
the master comparator `mastercmp`, the selection/aggregation pass
`display`, the traversal controller `traverse`, and the entry point
`ls_main`.  The field comparators of the Comparator Set (`cmp.c`) and
the behaviour of the external `fts` walk primitive are not part of the
given source tree and are modelled from the specification, as marked on
each such definition.
-/

namespace Libls

/-- Sign-valued comparison of two naturals, the shape every C
comparison in this file reduces to. -/
def cmpNat (x y : Nat) : Int :=
  if x < y then -1 else if y < x then 1 else 0

/-- A comparator is cmp-like when it is sign-antisymmetric, its strict
part is transitive and its kernel (result `0`) is transitive: exactly a
strict weak ordering presented as a three-way comparison. -/
def IsCmp {α : Type} (c : α → α → Int) : Prop :=
  (∀ a b, c a b = -(c b a)) ∧
  (∀ a b d, c a b < 0 → c b d < 0 → c a d < 0) ∧
  (∀ a b d, c a b = 0 → c b d = 0 → c a d = 0)

theorem cmpNat_antisym (x y : Nat) : cmpNat x y = -(cmpNat y x) := by
  unfold cmpNat
  split_ifs <;> omega

theorem cmpNat_lt_iff (x y : Nat) : cmpNat x y < 0 ↔ x < y := by
  unfold cmpNat
  split_ifs <;> simp <;> omega

theorem cmpNat_eq_iff (x y : Nat) : cmpNat x y = 0 ↔ x = y := by
  unfold cmpNat
  split_ifs <;> simp <;> omega

theorem isCmp_cmpNatKey {α : Type} (f : α → Nat) :
    IsCmp (fun a b => cmpNat (f a) (f b)) := by
  refine ⟨fun a b => cmpNat_antisym _ _, ?_, ?_⟩
  · intro a b d hab hbd
    rw [cmpNat_lt_iff] at hab hbd ⊢
    exact Nat.lt_trans hab hbd
  · intro a b d hab hbd
    rw [cmpNat_eq_iff] at hab hbd ⊢
    exact hab.trans hbd

namespace IsCmp

variable {α : Type} {c : α → α → Int}

theorem refl_zero (h : IsCmp c) (a : α) : c a a = 0 := by
  have := h.1 a a
  omega

theorem gt_iff_lt_swap (h : IsCmp c) (a b : α) : 0 < c a b ↔ c b a < 0 := by
  have := h.1 a b
  omega

theorem zero_swap (h : IsCmp c) (a b : α) (hz : c a b = 0) : c b a = 0 := by
  have := h.1 a b
  omega

/-- In a strict weak ordering, something smaller than `b` is smaller
than anything `b` is equivalent to. -/
theorem lt_of_lt_of_eq (h : IsCmp c) {a b d : α}
    (hab : c a b < 0) (hbd : c b d = 0) : c a d < 0 := by
  rcases Int.lt_trichotomy (c a d) 0 with hlt | hz | hgt
  · exact hlt
  · have hda : c d a = 0 := h.zero_swap a d hz
    have hba : c b a = 0 := h.2.2 b d a hbd hda
    have := h.1 a b
    omega
  · have hda : c d a < 0 := (h.gt_iff_lt_swap a d).1 hgt
    have hdb : c d b < 0 := h.2.1 d a b hda hab
    have hbd2 : c d b = 0 := h.zero_swap b d hbd
    omega

theorem eq_of_eq_of_lt (h : IsCmp c) {a b d : α}
    (hab : c a b = 0) (hbd : c b d < 0) : c a d < 0 := by
  rcases Int.lt_trichotomy (c a d) 0 with hlt | hz | hgt
  · exact hlt
  · have hba : c b a = 0 := h.zero_swap a b hab
    have : c b d = 0 := h.2.2 b a d hba hz
    omega
  · have hda : c d a < 0 := (h.gt_iff_lt_swap a d).1 hgt
    have hdb : c d b < 0 := h.lt_of_lt_of_eq hda hab
    have := h.1 b d
    omega

theorem neg (h : IsCmp c) : IsCmp (fun a b => -(c a b)) := by
  refine ⟨?_, ?_, ?_⟩
  · intro a b
    show -(c a b) = -(-(c b a))
    rw [h.1 a b]
  · intro a b d hab hbd
    show -(c a d) < 0
    have hab2 : -(c a b) < 0 := hab
    have hbd2 : -(c b d) < 0 := hbd
    have hba : c b a < 0 := by have := h.1 a b; omega
    have hdb : c d b < 0 := by have := h.1 b d; omega
    have hda : c d a < 0 := h.2.1 d b a hdb hba
    have := h.1 a d
    omega
  · intro a b d hab hbd
    show -(c a d) = 0
    have hab2 : -(c a b) = 0 := hab
    have hbd2 : -(c b d) = 0 := hbd
    have := h.2.2 a b d (by omega) (by omega)
    omega

end IsCmp

/-- Lexicographic combination: compare with `c1` first, break ties with
`c2` — the shape of every field comparator with its name tie-break. -/
def lexCmp {α : Type} (c1 c2 : α → α → Int) (a b : α) : Int :=
  if c1 a b = 0 then c2 a b else c1 a b

theorem lexCmp_eq_snd {α : Type} (c1 c2 : α → α → Int) {a b : α}
    (h : c1 a b = 0) : lexCmp c1 c2 a b = c2 a b := by
  unfold lexCmp
  simp [h]

theorem lexCmp_eq_fst {α : Type} (c1 c2 : α → α → Int) {a b : α}
    (h : c1 a b ≠ 0) : lexCmp c1 c2 a b = c1 a b := by
  unfold lexCmp
  simp [h]

theorem isCmp_lexCmp {α : Type} {c1 c2 : α → α → Int}
    (h1 : IsCmp c1) (h2 : IsCmp c2) : IsCmp (lexCmp c1 c2) := by
  refine ⟨?_, ?_, ?_⟩
  · intro a b
    by_cases hz : c1 a b = 0
    · have hz2 : c1 b a = 0 := h1.zero_swap a b hz
      rw [lexCmp_eq_snd c1 c2 hz, lexCmp_eq_snd c1 c2 hz2, h2.1 a b]
    · have hz2 : c1 b a ≠ 0 := fun hh => hz (h1.zero_swap b a hh)
      rw [lexCmp_eq_fst c1 c2 hz, lexCmp_eq_fst c1 c2 hz2, h1.1 a b]
  · intro a b d hab hbd
    by_cases hz1 : c1 a b = 0 <;> by_cases hz2 : c1 b d = 0
    · have hz3 : c1 a d = 0 := h1.2.2 a b d hz1 hz2
      rw [lexCmp_eq_snd c1 c2 hz3]
      rw [lexCmp_eq_snd c1 c2 hz1] at hab
      rw [lexCmp_eq_snd c1 c2 hz2] at hbd
      exact h2.2.1 a b d hab hbd
    · rw [lexCmp_eq_fst c1 c2 hz2] at hbd
      have had : c1 a d < 0 := h1.eq_of_eq_of_lt hz1 hbd
      rw [lexCmp_eq_fst c1 c2 (by omega)]
      exact had
    · rw [lexCmp_eq_fst c1 c2 hz1] at hab
      have had : c1 a d < 0 := h1.lt_of_lt_of_eq hab hz2
      rw [lexCmp_eq_fst c1 c2 (by omega)]
      exact had
    · rw [lexCmp_eq_fst c1 c2 hz1] at hab
      rw [lexCmp_eq_fst c1 c2 hz2] at hbd
      have had : c1 a d < 0 := h1.2.1 a b d hab hbd
      rw [lexCmp_eq_fst c1 c2 (by omega)]
      exact had
  · intro a b d hab hbd
    by_cases hz1 : c1 a b = 0 <;> by_cases hz2 : c1 b d = 0
    · have hz3 : c1 a d = 0 := h1.2.2 a b d hz1 hz2
      rw [lexCmp_eq_snd c1 c2 hz3]
      rw [lexCmp_eq_snd c1 c2 hz1] at hab
      rw [lexCmp_eq_snd c1 c2 hz2] at hbd
      exact h2.2.2 a b d hab hbd
    · rw [lexCmp_eq_fst c1 c2 hz2] at hbd
      exact absurd hbd hz2
    · rw [lexCmp_eq_fst c1 c2 hz1] at hab
      exact absurd hab hz1
    · rw [lexCmp_eq_fst c1 c2 hz1] at hab
      exact absurd hab hz1

/-- Byte-wise string comparison as used through `strcmp` on
NUL-terminated names: a strict prefix is smaller, otherwise the first
differing character decides (only the sign of the C result is kept). -/
def strcmp : List Char → List Char → Int
  | [], [] => 0
  | [], _ :: _ => -1
  | _ :: _, [] => 1
  | a :: as, b :: bs =>
    if a.toNat < b.toNat then -1
    else if b.toNat < a.toNat then 1
    else strcmp as bs

theorem strcmp_antisym : ∀ a b : List Char, strcmp a b = -(strcmp b a)
  | [], [] => rfl
  | [], _ :: _ => rfl
  | _ :: _, [] => rfl
  | a :: as, b :: bs => by
    unfold strcmp
    split_ifs <;> try omega
    all_goals exact strcmp_antisym as bs

theorem strcmp_trans_zero : ∀ a b d : List Char,
    strcmp a b = 0 → strcmp b d = 0 → strcmp a d = 0
  | [], [], _, _, hbd => hbd
  | [], _ :: _, _, hab, _ => by simp [strcmp] at hab
  | _ :: _, [], _, hab, _ => by simp [strcmp] at hab
  | _ :: _, _ :: _, [], _, hbd => by simp [strcmp] at hbd
  | a :: as, b :: bs, d :: ds, hab, hbd => by
    unfold strcmp at *
    split_ifs at hab with h1 h2 <;> try omega
    split_ifs at hbd with h3 h4 <;> try omega
    split_ifs with h5 h6 <;> try omega
    exact strcmp_trans_zero as bs ds hab hbd

theorem strcmp_trans_lt : ∀ a b d : List Char,
    strcmp a b < 0 → strcmp b d < 0 → strcmp a d < 0
  | [], [], _, hab, _ => by simp [strcmp] at hab
  | [], _ :: _, [], _, hbd => by simp [strcmp] at hbd
  | [], _ :: _, _ :: _, _, _ => by simp [strcmp]
  | _ :: _, [], _, hab, _ => by simp [strcmp] at hab
  | _ :: _, _ :: _, [], _, hbd => by simp [strcmp] at hbd
  | a :: as, b :: bs, d :: ds, hab, hbd => by
    unfold strcmp at *
    split_ifs at hab with h1 h2 <;> split_ifs at hbd with h3 h4 <;>
      split_ifs with h5 h6 <;> try omega
    exact strcmp_trans_lt as bs ds hab hbd

theorem isCmp_strcmp : IsCmp strcmp :=
  ⟨strcmp_antisym, strcmp_trans_lt, strcmp_trans_zero⟩

/-- The `fts_info` classification of an entry, restricted to the values
`ls.c` distinguishes (`FTS_D`, `FTS_DC`, `FTS_DNR`, `FTS_ERR`,
`FTS_NS`, `FTS_F`, `FTS_SL`), with `DEF` standing for every other
`fts` info value, which `ls.c` treats uniformly. -/
inductive Info : Type
  | D | DC | DNR | ERR | NS | F | SL | DEF
  deriving DecidableEq, Repr

/-- One `FTSENT` as `ls.c` reads it: name, full path, depth
(`fts_level`, with `FTS_ROOTLEVEL = 0`), info classification, errno and
the `struct stat` fields the display pass consumes.  `chrOrBlk` stands
for `S_ISCHR(st_mode) || S_ISBLK(st_mode)`. -/
structure Ent : Type where
  fts_name : List Char
  fts_path : List Char
  fts_level : Nat
  fts_info : Info
  fts_errno : Nat
  st_blocks : Nat
  st_ino : Nat
  st_nlink : Nat
  st_size : Nat
  st_uid : Nat
  st_gid : Nat
  st_mtime : Nat
  st_atime : Nat
  st_ctime : Nat
  chrOrBlk : Bool
  deriving DecidableEq, Repr

/-- The configuration globals of `ls.c` that the core reads: the flag
variables, the sort key (`BY_NAME = 0`, `BY_SIZE = 1`, `BY_TIME = 2`),
the block size and the terminal width. -/
structure Config : Type where
  f_accesstime : Bool := false
  f_column : Bool := false
  f_columnacross : Bool := false
  f_flags : Bool := false
  f_inode : Bool := false
  f_listdir : Bool := false
  f_listdot : Bool := false
  f_longform : Bool := false
  f_newline : Bool := false
  f_nonprint : Bool := false
  f_nosort : Bool := false
  f_numericonly : Bool := false
  f_recursive : Bool := false
  f_reversesort : Bool := false
  f_sectime : Bool := false
  f_singlecol : Bool := false
  f_size : Bool := false
  f_statustime : Bool := false
  f_stream : Bool := false
  f_dirname : Bool := false
  f_type : Bool := false
  f_typedir : Bool := false
  f_whiteout : Bool := false
  sortkey : Nat := 0
  blocksize : Nat := 0
  termwidth : Nat := 80
  deriving DecidableEq, Repr

/-- Modelled from the spec: the name comparator of the Comparator Set
(`cmp.c`, not part of the given sources) — plain `strcmp` of the two
entry names. -/
def namecmp (a b : Ent) : Int :=
  strcmp a.fts_name b.fts_name

/-- Modelled from the spec: a field comparator of the Comparator Set
(`cmp.c`, not part of the given sources) — compares the selected
numeric key and, per the spec, breaks ties by name so that each field
comparator is a total order over distinct paths. -/
def fieldCmp (f : Ent → Nat) (a b : Ent) : Int :=
  lexCmp (fun x y => cmpNat (f x) (f y)) namecmp a b

/-- Modelled from the spec: size comparator (`sizecmp`), ascending by
byte size per the spec's size-sort scenario, ties broken by name. -/
def sizecmp (a b : Ent) : Int := fieldCmp (fun e => e.st_size) a b

/-- Modelled from the spec: modification-time comparator (`modcmp`),
ties broken by name. -/
def modcmp (a b : Ent) : Int := fieldCmp (fun e => e.st_mtime) a b

/-- Modelled from the spec: access-time comparator (`acccmp`), ties
broken by name. -/
def acccmp (a b : Ent) : Int := fieldCmp (fun e => e.st_atime) a b

/-- Modelled from the spec: status-change-time comparator (`statcmp`),
ties broken by name. -/
def statcmp (a b : Ent) : Int := fieldCmp (fun e => e.st_ctime) a b

/-- The sort-function selection of `ls_main` (ls.c lines 293-333): one
of name/size/time by `sortkey` (time split by `f_accesstime` /
`f_statustime`), and, per the spec, the `rev*` variants flip the sign
of the forward comparator when `f_reversesort` is set. -/
def sortfcnOf (cfg : Config) : Ent → Ent → Int :=
  let base : Ent → Ent → Int :=
    if cfg.sortkey = 0 then namecmp
    else if cfg.sortkey = 1 then sizecmp
    else if cfg.f_accesstime then acccmp
    else if cfg.f_statustime then statcmp
    else modcmp
  if cfg.f_reversesort then fun a b => -(base a b) else base

/-- The master comparator (ls.c lines 613-643), transcribed clause by
clause: error entries compare equal; not-stat-able entries sort after
stat-able ones and among themselves by name; at root level with
`f_listdir` off, a directory in a mixed-kind pair compares greater;
otherwise the selected field comparator decides. -/
def mastercmp (cfg : Config) (a b : Ent) : Int :=
  if a.fts_info = Info.ERR then 0
  else if b.fts_info = Info.ERR then 0
  else if a.fts_info = Info.NS ∨ b.fts_info = Info.NS then
    (if b.fts_info ≠ Info.NS then 1
     else if a.fts_info ≠ Info.NS then -1
     else namecmp a b)
  else if a.fts_info ≠ b.fts_info ∧ a.fts_level = 0 ∧ cfg.f_listdir = false then
    (if a.fts_info = Info.D then 1
     else if b.fts_info = Info.D then -1
     else sortfcnOf cfg a b)
  else sortfcnOf cfg a b

theorem isCmp_namecmp : IsCmp namecmp :=
  ⟨fun a b => strcmp_antisym a.fts_name b.fts_name,
   fun _ _ _ hab hbd => strcmp_trans_lt _ _ _ hab hbd,
   fun _ _ _ hab hbd => strcmp_trans_zero _ _ _ hab hbd⟩

theorem isCmp_fieldCmp (f : Ent → Nat) : IsCmp (fieldCmp f) :=
  isCmp_lexCmp (isCmp_cmpNatKey f) isCmp_namecmp

theorem isCmp_sortfcnOf (cfg : Config) : IsCmp (sortfcnOf cfg) := by
  unfold sortfcnOf
  have hbase : ∀ c : Ent → Ent → Int,
      c = namecmp ∨ c = sizecmp ∨ c = modcmp ∨ c = acccmp ∨ c = statcmp →
      IsCmp c := by
    rintro c (rfl | rfl | rfl | rfl | rfl)
    · exact isCmp_namecmp
    · exact isCmp_fieldCmp _
    · exact isCmp_fieldCmp _
    · exact isCmp_fieldCmp _
    · exact isCmp_fieldCmp _
  split_ifs <;>
    first
      | exact (hbase _ (by simp [sizecmp, modcmp, acccmp, statcmp])).neg
      | exact hbase _ (by simp [sizecmp, modcmp, acccmp, statcmp])

/-- The group index `mastercmp` implicitly sorts by on non-error
entries: not-stat-able entries last (group 2), root-level directories
with grouping active in the middle (group 1), everything else first
(group 0). -/
def grp (cfg : Config) (e : Ent) : Nat :=
  if e.fts_info = Info.NS then 2
  else if e.fts_level = 0 ∧ cfg.f_listdir = false ∧ e.fts_info = Info.D then 1
  else 0

/-- The comparator `mastercmp` delegates to inside one group: plain
name comparison among not-stat-able entries, the selected field
comparator everywhere else. -/
def groupCmpAt (cfg : Config) (n : Nat) : Ent → Ent → Int :=
  if n = 2 then namecmp else sortfcnOf cfg

/-- Reformulation of `mastercmp` on non-error entries: compare group
indices first, then delegate to the group's comparator. -/
def groupedCmp (cfg : Config) (a b : Ent) : Int :=
  if grp cfg a < grp cfg b then -1
  else if grp cfg b < grp cfg a then 1
  else groupCmpAt cfg (grp cfg a) a b

theorem isCmp_groupSplit {α : Type} (f : α → Nat) (c : Nat → α → α → Int)
    (hc : ∀ n, IsCmp (c n)) :
    IsCmp (fun a b =>
      if f a < f b then -1 else if f b < f a then 1 else c (f a) a b) := by
  have hlt : ∀ x y,
      ((if f x < f y then (-1 : Int) else if f y < f x then 1 else c (f x) x y) < 0
        ↔ (f x < f y ∨ (f x = f y ∧ c (f x) x y < 0))) := by
    intro x y
    split_ifs with h1 h2
    · simp [h1]
    · have hne : f x ≠ f y := by omega
      simp [h1, hne]
    · have heq : f x = f y := by omega
      simp [h1, heq]
  have hz : ∀ x y,
      ((if f x < f y then (-1 : Int) else if f y < f x then 1 else c (f x) x y) = 0
        ↔ (f x = f y ∧ c (f x) x y = 0)) := by
    intro x y
    split_ifs with h1 h2
    · have hne : f x ≠ f y := by omega
      simp [hne]
    · have hne : f x ≠ f y := by omega
      simp [hne]
    · have heq : f x = f y := by omega
      simp [heq]
  refine ⟨?_, ?_, ?_⟩
  · intro a b
    show (if f a < f b then (-1 : Int) else if f b < f a then 1 else c (f a) a b)
       = -(if f b < f a then (-1 : Int) else if f a < f b then 1 else c (f b) b a)
    rcases Nat.lt_trichotomy (f a) (f b) with h | h | h
    · simp [h, Nat.lt_asymm h]
    · simp [h, Nat.lt_irrefl]
      exact (hc (f b)).1 a b
    · simp [h, Nat.lt_asymm h]
  · intro a b d hab hbd
    rw [hlt] at hab hbd ⊢
    rcases hab with h1 | ⟨h1, hc1⟩ <;> rcases hbd with h2 | ⟨h2, hc2⟩
    · exact Or.inl (h1.trans h2)
    · exact Or.inl (h2 ▸ h1)
    · exact Or.inl (h1 ▸ h2)
    · refine Or.inr ⟨h1.trans h2, ?_⟩
      refine (hc (f a)).2.1 a b d hc1 ?_
      rw [h1]
      exact hc2
  · intro a b d hab hbd
    rw [hz] at hab hbd ⊢
    refine ⟨hab.1.trans hbd.1, ?_⟩
    refine (hc (f a)).2.2 a b d hab.2 ?_
    rw [hab.1]
    exact hbd.2

theorem isCmp_groupedCmp (cfg : Config) : IsCmp (groupedCmp cfg) := by
  have h : ∀ n, IsCmp (groupCmpAt cfg n) := by
    intro n
    unfold groupCmpAt
    split_ifs
    · exact isCmp_namecmp
    · exact isCmp_sortfcnOf cfg
  exact isCmp_groupSplit (grp cfg) (groupCmpAt cfg) h

/-- On same-level pairs with no error entry, `mastercmp` coincides with
the grouped reformulation. -/
theorem mastercmp_eq_groupedCmp (cfg : Config) (a b : Ent)
    (ha : a.fts_info ≠ Info.ERR) (hb : b.fts_info ≠ Info.ERR)
    (hl : a.fts_level = b.fts_level) :
    mastercmp cfg a b = groupedCmp cfg a b := by
  by_cases hans : a.fts_info = Info.NS <;> by_cases hbns : b.fts_info = Info.NS
  · have hga : grp cfg a = 2 := by simp [grp, hans]
    have hgb : grp cfg b = 2 := by simp [grp, hbns]
    simp [mastercmp, groupedCmp, ha, hb, hans, hbns, hga, hgb, groupCmpAt]
  · have hga : grp cfg a = 2 := by simp [grp, hans]
    have hgb : grp cfg b < 2 := by
      unfold grp
      rw [if_neg hbns]
      split_ifs <;> omega
    have h1 : mastercmp cfg a b = 1 := by simp [mastercmp, ha, hb, hans, hbns]
    have h2 : groupedCmp cfg a b = 1 := by
      unfold groupedCmp
      rw [hga, if_neg (by omega), if_pos (by omega)]
    rw [h1, h2]
  · have hgb : grp cfg b = 2 := by simp [grp, hbns]
    have hga : grp cfg a < 2 := by
      unfold grp
      rw [if_neg hans]
      split_ifs <;> omega
    have h1 : mastercmp cfg a b = -1 := by simp [mastercmp, ha, hb, hans, hbns]
    have h2 : groupedCmp cfg a b = -1 := by
      unfold groupedCmp
      rw [hgb, if_pos (by omega)]
    rw [h1, h2]
  · by_cases hcond : a.fts_info ≠ b.fts_info ∧ a.fts_level = 0 ∧
        cfg.f_listdir = false
    · obtain ⟨hne, hlev, hld⟩ := hcond
      by_cases had : a.fts_info = Info.D
      · have hbd : b.fts_info ≠ Info.D := fun hh => hne (had.trans hh.symm)
        have hga : grp cfg a = 1 := by simp [grp, hans, hlev, hld, had]
        have hgb : grp cfg b = 0 := by simp [grp, hbns, hbd]
        have h1 : mastercmp cfg a b = 1 := by
          simp [mastercmp, ha, hb, hans, hbns, hne, hlev, hld, had, Ne.symm hbd]
        have h2 : groupedCmp cfg a b = 1 := by
          unfold groupedCmp
          rw [hga, hgb]
          simp
        rw [h1, h2]
      · by_cases hbd : b.fts_info = Info.D
        · have hblev : b.fts_level = 0 := hl.symm.trans hlev
          have hga : grp cfg a = 0 := by simp [grp, hans, had]
          have hgb : grp cfg b = 1 := by simp [grp, hbns, hblev, hld, hbd]
          have h1 : mastercmp cfg a b = -1 := by
            simp [mastercmp, ha, hb, hans, hbns, hne, hlev, hld, had, hbd]
          have h2 : groupedCmp cfg a b = -1 := by
            unfold groupedCmp
            rw [hga, hgb]
            simp
          rw [h1, h2]
        · have hga : grp cfg a = 0 := by simp [grp, hans, had]
          have hgb : grp cfg b = 0 := by simp [grp, hbns, hbd]
          have h1 : mastercmp cfg a b = sortfcnOf cfg a b := by
            simp [mastercmp, ha, hb, hans, hbns, hne, hlev, hld, had, hbd]
          have h2 : groupedCmp cfg a b = sortfcnOf cfg a b := by
            unfold groupedCmp
            rw [hga, hgb]
            simp [groupCmpAt]
          rw [h1, h2]
    · have h1 : mastercmp cfg a b = sortfcnOf cfg a b := by
        unfold mastercmp
        rw [if_neg ha, if_neg hb, if_neg (by simp [hans, hbns]), if_neg hcond]
      have hgeq : grp cfg a = grp cfg b := by
        by_cases hroot : a.fts_level = 0 ∧ cfg.f_listdir = false
        · have hinfo : a.fts_info = b.fts_info := by
            by_contra hii
            exact hcond ⟨hii, hroot.1, hroot.2⟩
          unfold grp
          rw [hinfo, hl]
        · have hca : ¬(a.fts_level = 0 ∧ cfg.f_listdir = false ∧
              a.fts_info = Info.D) := fun hh => hroot ⟨hh.1, hh.2.1⟩
          have hcb : ¬(b.fts_level = 0 ∧ cfg.f_listdir = false ∧
              b.fts_info = Info.D) := fun hh => hroot ⟨hl.trans hh.1, hh.2.1⟩
          unfold grp
          rw [if_neg hans, if_neg hbns, if_neg hca, if_neg hcb]
      have hb2 : grp cfg b ≠ 2 := by
        unfold grp
        rw [if_neg hbns]
        split_ifs <;> omega
      have h2 : groupedCmp cfg a b = sortfcnOf cfg a b := by
        unfold groupedCmp
        rw [hgeq, if_neg (Nat.lt_irrefl _), if_neg (Nat.lt_irrefl _)]
        unfold groupCmpAt
        rw [if_neg hb2]
      rw [h1, h2]

/-- A minimal concrete entry for evaluating the comparator on witnesses
and counterexamples. -/
def mkEnt (nm : List Char) (lv : Nat) (info : Info) : Ent :=
  { fts_name := nm, fts_path := nm, fts_level := lv, fts_info := info,
    fts_errno := 0, st_blocks := 0, st_ino := 0, st_nlink := 0, st_size := 0,
    st_uid := 0, st_gid := 0, st_mtime := 0, st_atime := 0, st_ctime := 0,
    chrOrBlk := false }

/-- Error entries force `mastercmp` to answer 0 no matter what the
other entry or the configuration is (ls.c lines 618-623). -/
theorem mastercmp_err (cfg : Config) (a b : Ent)
    (h : a.fts_info = Info.ERR ∨ b.fts_info = Info.ERR) :
    mastercmp cfg a b = 0 := by
  unfold mastercmp
  rcases h with h | h
  · rw [if_pos h]
  · by_cases ha : a.fts_info = Info.ERR
    · rw [if_pos ha]
    · rw [if_neg ha, if_pos h]

/-- The pairs on which `mastercmp` answers from one of its special
branches rather than from the selected field comparator: an error
entry, a not-stat-able entry, or the root-level directory/non-directory
grouping. -/
def specialCase (cfg : Config) (a b : Ent) : Prop :=
  a.fts_info = Info.ERR ∨ b.fts_info = Info.ERR ∨
  a.fts_info = Info.NS ∨ b.fts_info = Info.NS ∨
  (a.fts_info ≠ b.fts_info ∧ a.fts_level = 0 ∧ cfg.f_listdir = false ∧
    (a.fts_info = Info.D ∨ b.fts_info = Info.D))

/-- The toggle of ls.c line 294: the same configuration with
`f_reversesort` replaced. -/
def withRev (cfg : Config) (r : Bool) : Config :=
  { cfg with f_reversesort := r }

/-- On a special-case pair, `mastercmp` does not consult the selected
field comparator, so any two configurations agreeing on `f_listdir`
produce the same answer. -/
theorem mastercmp_special_indep (cfg1 cfg2 : Config) (a b : Ent)
    (hld : cfg1.f_listdir = cfg2.f_listdir) (h : specialCase cfg1 a b) :
    mastercmp cfg1 a b = mastercmp cfg2 a b := by
  by_cases haerr : a.fts_info = Info.ERR
  · rw [mastercmp_err cfg1 a b (Or.inl haerr),
      mastercmp_err cfg2 a b (Or.inl haerr)]
  by_cases hberr : b.fts_info = Info.ERR
  · rw [mastercmp_err cfg1 a b (Or.inr hberr),
      mastercmp_err cfg2 a b (Or.inr hberr)]
  by_cases hans : a.fts_info = Info.NS <;> by_cases hbns : b.fts_info = Info.NS
  · simp [mastercmp, haerr, hberr, hans, hbns]
  · simp [mastercmp, haerr, hberr, hans, hbns]
  · simp [mastercmp, haerr, hberr, hans, hbns]
  · rcases h with h | h | h | h | ⟨hne, hlev, hld1, hD⟩
    · exact absurd h haerr
    · exact absurd h hberr
    · exact absurd h hans
    · exact absurd h hbns
    · have hld2 : cfg2.f_listdir = false := hld ▸ hld1
      rcases hD with hD | hD
      · have hbd : b.fts_info ≠ Info.D := fun hh => hne (hD.trans hh.symm)
        simp [mastercmp, haerr, hberr, hans, hbns, hne, hlev, hld1, hld2, hD,
          Ne.symm hbd]
      · have had : a.fts_info ≠ Info.D := fun hh => hne (hh.trans hD.symm)
        simp [mastercmp, haerr, hberr, hans, hbns, hne, hlev, hld1, hld2, hD,
          had]

/-- C1: the claim states that at root level, with `f_listdir` off, a
directory entry compares LESS than a non-directory entry (directories
first).  The code does the opposite: `mastercmp` returns 1 when its
first argument is the directory (ls.c lines 635-641), so the directory
compares greater.  Concrete refutation at a directory/file pair of root
arguments under the default configuration. -/
theorem C1_counterexample :
    mastercmp {} (mkEnt ['d'] 0 Info.D) (mkEnt ['f'] 0 Info.F) = 1 ∧
    ¬ mastercmp {} (mkEnt ['d'] 0 Info.D) (mkEnt ['f'] 0 Info.F) < 0 := by
  constructor
  · rfl
  · decide

/-- C1 amended: for every configuration with the 'list directory
itself' mode off and every root-level mixed pair with the directory on
one side and a non-error, non-not-stat-able non-directory on the other,
the directory entry compares GREATER than the non-directory entry
(non-directories first, directories after), regardless of the active
sort key. -/
theorem C1_amended (cfg : Config) (a b : Ent)
    (hld : cfg.f_listdir = false) (had : a.fts_info = Info.D)
    (halev : a.fts_level = 0) (hblev : b.fts_level = 0)
    (hbd : b.fts_info ≠ Info.D) (hberr : b.fts_info ≠ Info.ERR)
    (hbns : b.fts_info ≠ Info.NS) :
    mastercmp cfg a b = 1 ∧ mastercmp cfg b a = -1 := by
  constructor
  · simp [mastercmp, hld, had, halev, hberr, hbns, Ne.symm hbd]
  · simp [mastercmp, hld, had, hblev, hberr, hbns, hbd, Ne.symm hbd]

theorem C1_amended_witness :
    mastercmp {} (mkEnt ['d'] 0 Info.D) (mkEnt ['f'] 0 Info.F) = 1 ∧
    mastercmp {} (mkEnt ['f'] 0 Info.F) (mkEnt ['d'] 0 Info.D) = -1 :=
  C1_amended {} (mkEnt ['d'] 0 Info.D) (mkEnt ['f'] 0 Info.F)
    rfl rfl rfl rfl (by decide) (by decide) (by decide)

/-- C7: whenever either compared entry is marked as a traversal error
(`FTS_ERR`), the master comparator returns zero, for every
configuration and regardless of everything else about the entries. -/
theorem C7_theorem (cfg : Config) (a b : Ent)
    (h : a.fts_info = Info.ERR ∨ b.fts_info = Info.ERR) :
    mastercmp cfg a b = 0 :=
  mastercmp_err cfg a b h

theorem C7_witness :
    mastercmp {} (mkEnt ['e'] 0 Info.ERR) (mkEnt ['f'] 0 Info.F) = 0 ∧
    mastercmp {} (mkEnt ['f'] 0 Info.F) (mkEnt ['e'] 0 Info.ERR) = 0 :=
  ⟨C7_theorem {} (mkEnt ['e'] 0 Info.ERR) (mkEnt ['f'] 0 Info.F) (Or.inl rfl),
   C7_theorem {} (mkEnt ['f'] 0 Info.F) (mkEnt ['e'] 0 Info.ERR) (Or.inr rfl)⟩

/-- C4 counterexample: on an input containing an error-marked entry the
induced 'compares equal' relation of `mastercmp` is not transitive
(d ~ e and e ~ f but d and f compare strictly), so the comparator is
not a strict weak ordering on inputs with error entries, contrary to
the claim. -/
theorem C4_counterexample :
    mastercmp {} (mkEnt ['d'] 0 Info.D) (mkEnt ['e'] 0 Info.ERR) = 0 ∧
    mastercmp {} (mkEnt ['e'] 0 Info.ERR) (mkEnt ['f'] 0 Info.F) = 0 ∧
    mastercmp {} (mkEnt ['d'] 0 Info.D) (mkEnt ['f'] 0 Info.F) = 1 :=
  ⟨rfl, rfl, rfl⟩

/-- C4 amended: for every fixed configuration, the master comparator
restricted to same-level (same comparison context) pairs none of which
is an error entry is a strict weak ordering: sign-antisymmetric, with
transitive strict part and transitive induced equivalence — including
on not-stat-able entries.  (Error entries break transitivity of the
equivalence, see the counterexample.) -/
theorem C4_amended (cfg : Config) :
    (∀ a b : Ent, a.fts_info ≠ Info.ERR → b.fts_info ≠ Info.ERR →
      a.fts_level = b.fts_level →
      mastercmp cfg a b = -(mastercmp cfg b a)) ∧
    (∀ a b d : Ent, a.fts_info ≠ Info.ERR → b.fts_info ≠ Info.ERR →
      d.fts_info ≠ Info.ERR →
      a.fts_level = b.fts_level → b.fts_level = d.fts_level →
      mastercmp cfg a b < 0 → mastercmp cfg b d < 0 →
      mastercmp cfg a d < 0) ∧
    (∀ a b d : Ent, a.fts_info ≠ Info.ERR → b.fts_info ≠ Info.ERR →
      d.fts_info ≠ Info.ERR →
      a.fts_level = b.fts_level → b.fts_level = d.fts_level →
      mastercmp cfg a b = 0 → mastercmp cfg b d = 0 →
      mastercmp cfg a d = 0) := by
  have hic := isCmp_groupedCmp cfg
  refine ⟨?_, ?_, ?_⟩
  · intro a b ha hb hl
    rw [mastercmp_eq_groupedCmp cfg a b ha hb hl,
      mastercmp_eq_groupedCmp cfg b a hb ha hl.symm]
    exact hic.1 a b
  · intro a b d ha hb hd hl1 hl2 hab hbd
    rw [mastercmp_eq_groupedCmp cfg a b ha hb hl1] at hab
    rw [mastercmp_eq_groupedCmp cfg b d hb hd hl2] at hbd
    rw [mastercmp_eq_groupedCmp cfg a d ha hd (hl1.trans hl2)]
    exact hic.2.1 a b d hab hbd
  · intro a b d ha hb hd hl1 hl2 hab hbd
    rw [mastercmp_eq_groupedCmp cfg a b ha hb hl1] at hab
    rw [mastercmp_eq_groupedCmp cfg b d hb hd hl2] at hbd
    rw [mastercmp_eq_groupedCmp cfg a d ha hd (hl1.trans hl2)]
    exact hic.2.2 a b d hab hbd

theorem C4_amended_witness :
    mastercmp {} (mkEnt ['a'] 1 Info.F) (mkEnt ['b'] 1 Info.F)
      = -(mastercmp {} (mkEnt ['b'] 1 Info.F) (mkEnt ['a'] 1 Info.F)) ∧
    mastercmp {} (mkEnt ['a'] 1 Info.F) (mkEnt ['c'] 1 Info.F) < 0 :=
  ⟨(C4_amended {}).1 (mkEnt ['a'] 1 Info.F) (mkEnt ['b'] 1 Info.F)
      (by decide) (by decide) rfl,
   (C4_amended {}).2.1 (mkEnt ['a'] 1 Info.F) (mkEnt ['b'] 1 Info.F)
      (mkEnt ['c'] 1 Info.F) (by decide) (by decide) (by decide) rfl rfl
      (by decide) (by decide)⟩

/-- C8: on every pair that triggers one of the special cases of the
master comparator (error entry, not-stat-able entry, root-level
directory/non-directory grouping), toggling `f_reversesort` does not
change the comparator's answer; in particular reversing the sort key
does not invert the root-level grouping. -/
theorem C8_theorem (cfg : Config) (a b : Ent) (h : specialCase cfg a b) :
    mastercmp (withRev cfg true) a b = mastercmp (withRev cfg false) a b :=
  mastercmp_special_indep (withRev cfg true) (withRev cfg false) a b rfl h

theorem C8_witness :
    mastercmp (withRev {} true) (mkEnt ['f'] 0 Info.F) (mkEnt ['d'] 0 Info.D)
      = mastercmp (withRev {} false) (mkEnt ['f'] 0 Info.F)
          (mkEnt ['d'] 0 Info.D) :=
  C8_theorem {} (mkEnt ['f'] 0 Info.F) (mkEnt ['d'] 0 Info.D)
    (Or.inr (Or.inr (Or.inr (Or.inr
      ⟨by decide, rfl, rfl, Or.inr rfl⟩))))

/-- One line written to the error channel, identified by which
`fprintf(stderr, ...)` site of ls.c produced it and its arguments
(the text of `strerror` is external and abstracted away). -/
inductive ErrLine : Type
  | nodeErr (nm : List Char) (errno : Nat)
  | cycleErr (nm : List Char)
  | openErr
  | readErr
  | mallocErr
  deriving DecidableEq, Repr

/-- The `DISPLAY` aggregate of ls.h as `display` fills it (ls.c lines
583-597).  When `needstats` is off the C code leaves the stat-derived
fields unassigned and no renderer reads them; the embedding pins them
to 0 in that case. -/
structure DISPLAY : Type where
  list : List Ent
  entries : Nat
  maxlen : Nat
  bcfile : Bool
  btotal : Nat
  s_block : Nat
  s_flags : Nat
  s_group : Nat
  s_inode : Nat
  s_nlink : Nat
  s_size : Nat
  s_user : Nat
  deriving DecidableEq, Repr

/-- One event on standard output: a directory header (`path:`, with or
without a preceding blank separator line) or one invocation of the
selected print function on a descriptor.  The renderers themselves are
external. -/
inductive OutEvent : Type
  | header (path : List Char) (precededByBlank : Bool)
  | render (d : DISPLAY)
  deriving DecidableEq, Repr

/-- The mutable run-wide state of ls.c: the accumulated exit status
`rval`, the `output` flag, and the two output channels. -/
structure RState : Type where
  rval : Nat
  output : Bool
  stdout : List OutEvent
  stderr : List ErrLine
  deriving DecidableEq, Repr

/-- Modelled from the spec: the external lookup services `display`
calls — `getpwuid`/`getgrgid` name resolution (`none` = lookup
failure), and a `malloc` oracle telling whether the n-th allocation
call of a `display` invocation fails. -/
structure Env : Type where
  uidName : Nat → Option (List Char)
  gidName : Nat → Option (List Char)
  allocFails : Nat → Bool

/-- ls.c line 461: stat information is needed for -i, -l or -s. -/
def needstats (cfg : Config) : Bool :=
  cfg.f_inode || cfg.f_longform || cfg.f_size

/-- Length of the decimal rendering `umaxtostr` would produce. -/
def decLen (n : Nat) : Nat := (Nat.toDigits 10 n).length

/-- The resolved user name of ls.c lines 520-532: numeric-only mode or
lookup failure fall back to the decimal uid string. -/
def userOf (cfg : Config) (env : Env) (uid : Nat) : List Char :=
  if cfg.f_numericonly then Nat.toDigits 10 uid
  else
    match env.uidName uid with
    | some s => s
    | none => Nat.toDigits 10 uid

/-- The resolved group name, symmetric to `userOf`. -/
def groupOf (cfg : Config) (env : Env) (gid : Nat) : List Char :=
  if cfg.f_numericonly then Nat.toDigits 10 gid
  else
    match env.gidName gid with
    | some s => s
    | none => Nat.toDigits 10 gid

/-- ls.c line 469: an entry `display` reports and suppresses. -/
def isNodeErr (e : Ent) : Bool :=
  e.fts_info == Info.ERR || e.fts_info == Info.NS

/-- The `fts_name[0] == '.'` test. -/
def headIsDot : List Char → Bool
  | [] => false
  | ch :: _ => ch == '.'

/-- Which entries of a sibling list survive the filtering of the
`display` loop (ls.c lines 469-499): error/not-stat-able nodes never;
with a NULL parent (root argument list) directories are deferred unless
`-d`; otherwise dotfiles are dropped unless `-a`/`-A`. -/
def survives (cfg : Config) (pNull : Bool) (e : Ent) : Bool :=
  if isNodeErr e then false
  else if pNull then !(e.fts_info == Info.D && !cfg.f_listdir)
  else !(headIsDot e.fts_name && !cfg.f_listdot)

/-- The local accumulator of the `display` scan loop (ls.c lines
462-467), extended with the allocation bookkeeping (`mallocCalls`
counts `malloc` calls, `attached` the annotation ids stored into
`fts_pointer`). -/
structure DAcc : Type where
  maxlen : Nat := 0
  maxblock : Nat := 0
  maxinode : Nat := 0
  maxnlink : Nat := 0
  maxsize : Nat := 0
  btotal : Nat := 0
  bcfile : Bool := false
  maxuser : Nat := 0
  maxgroup : Nat := 0
  maxflags : Nat := 0
  entries : Nat := 0
  mallocCalls : Nat := 0
  attached : List Nat := []
  deriving DecidableEq, Repr

/-- The scan loop of `display` (ls.c lines 467-578).  The returned
Bool is true when the loop aborted on a failed allocation (the C
`return` at line 558).  `btotal` is an unsigned long, hence the mod
2^64 on each addition. -/
def dLoop (cfg : Config) (env : Env) (pNull : Bool) :
    List Ent → DAcc → RState → DAcc × RState × Bool
  | [], acc, st => (acc, st, false)
  | cur :: rest, acc, st =>
    if isNodeErr cur then
      dLoop cfg env pNull rest acc
        { st with
          rval := 1,
          stderr := st.stderr ++ [ErrLine.nodeErr cur.fts_name cur.fts_errno] }
    else if pNull && (cur.fts_info == Info.D && !cfg.f_listdir) then
      dLoop cfg env pNull rest acc st
    else if !pNull && (headIsDot cur.fts_name && !cfg.f_listdot) then
      dLoop cfg env pNull rest acc st
    else
      let acc1 := { acc with maxlen := max acc.maxlen cur.fts_name.length }
      if needstats cfg then
        let acc2 := { acc1 with
          maxblock := max acc1.maxblock cur.st_blocks,
          maxinode := max acc1.maxinode cur.st_ino,
          maxnlink := max acc1.maxnlink cur.st_nlink,
          maxsize := max acc1.maxsize cur.st_size,
          btotal := (acc1.btotal + cur.st_blocks) % (2 ^ 64) }
        if cfg.f_longform then
          let user := userOf cfg env cur.st_uid
          let group := groupOf cfg env cur.st_gid
          let flen : Nat := if cfg.f_flags then 1 else 0
          let acc3 := { acc2 with
            maxuser := max acc2.maxuser user.length,
            maxgroup := max acc2.maxgroup group.length,
            maxflags := max acc2.maxflags flen }
          if env.allocFails acc3.mallocCalls then
            ({ acc3 with mallocCalls := acc3.mallocCalls + 1 },
             { st with
               rval := 1,
               stderr := st.stderr ++ [ErrLine.mallocErr] },
             true)
          else
            dLoop cfg env pNull rest
              { acc3 with
                mallocCalls := acc3.mallocCalls + 1,
                attached := acc3.attached ++ [acc3.mallocCalls],
                bcfile := acc3.bcfile || cur.chrOrBlk,
                entries := acc3.entries + 1 } st
        else
          dLoop cfg env pNull rest { acc2 with entries := acc2.entries + 1 } st
      else
        dLoop cfg env pNull rest { acc1 with entries := acc1.entries + 1 } st

/-- The result of one `display` call: the run state afterwards, what
was handed to the print function (if anything), the annotation ids
allocated and attached during the call, the ids freed before
returning, and whether the call aborted on a failed allocation. -/
structure DRes : Type where
  st : RState
  rendered : Option DISPLAY
  attached : List Nat
  freed : List Nat
  aborted : Bool
  deriving Repr

/-- The descriptor assembly of ls.c lines 583-597 from the scan
accumulator.  Fields the C code leaves unassigned when `needstats` is
off are pinned to 0. -/
def mkDesc (cfg : Config) (acc : DAcc) (list : List Ent) : DISPLAY :=
  { list := list
    entries := acc.entries
    maxlen := acc.maxlen
    bcfile := if needstats cfg then acc.bcfile else false
    btotal := if needstats cfg then acc.btotal else 0
    s_block := if needstats cfg then decLen acc.maxblock else 0
    s_flags := if needstats cfg then acc.maxflags else 0
    s_group := if needstats cfg then acc.maxgroup else 0
    s_inode := if needstats cfg then decLen acc.maxinode else 0
    s_nlink := if needstats cfg then decLen acc.maxnlink else 0
    s_size := if needstats cfg then decLen acc.maxsize else 0
    s_user := if needstats cfg then acc.maxuser else 0 }

/-- The selection-and-aggregation pass `display` (ls.c lines 434-605):
empty list short-circuits (the C NULL check), the scan loop filters and
aggregates, an all-filtered list returns before rendering, otherwise
the descriptor is built, rendered, `output` is set, and in long format
every attached annotation is freed afterwards. -/
def display (cfg : Config) (env : Env) (pNull : Bool) (list : List Ent)
    (st : RState) : DRes :=
  if list.isEmpty then ⟨st, none, [], [], false⟩
  else
    match dLoop cfg env pNull list {} st with
    | (acc, st1, true) => ⟨st1, none, acc.attached, [], true⟩
    | (acc, st1, false) =>
      if acc.entries = 0 then ⟨st1, none, acc.attached, [], false⟩
      else
        let d : DISPLAY := mkDesc cfg acc list
        ⟨{ st1 with
           stdout := st1.stdout ++ [OutEvent.render d],
           output := true },
         some d, acc.attached,
         if cfg.f_longform then acc.attached else [], false⟩

/-- The entries of one sibling list that survive the `display`
filtering, in list order. -/
def survivors (cfg : Config) (pNull : Bool) (l : List Ent) : List Ent :=
  l.filter (survives cfg pNull)

/-- The true maximum of a numeric field over a list of entries (0 for
the empty list). -/
def trueMax (f : Ent → Nat) (l : List Ent) : Nat :=
  (l.map f).foldr max 0

/-- The error-channel lines the `display` scan emits for one sibling
list: one `name: strerror(errno)` line per error/not-stat-able entry,
in list order. -/
def errReports (l : List Ent) : List ErrLine :=
  (l.filter isNodeErr).map (fun e => ErrLine.nodeErr e.fts_name e.fts_errno)

/-- Consecutive allocation ids `s, s+1, ..., s+n-1`. -/
def idRange (s : Nat) : Nat → List Nat
  | 0 => []
  | n + 1 => s :: idRange (s + 1) n

/-- The accumulator update one surviving entry performs in the
`display` scan, collapsed into a single record update per
configuration case. -/
def accStepS (cfg : Config) (env : Env) (acc : DAcc) (cur : Ent) : DAcc :=
  if needstats cfg then
    if cfg.f_longform then
      { acc with
        maxlen := max acc.maxlen cur.fts_name.length,
        maxblock := max acc.maxblock cur.st_blocks,
        maxinode := max acc.maxinode cur.st_ino,
        maxnlink := max acc.maxnlink cur.st_nlink,
        maxsize := max acc.maxsize cur.st_size,
        btotal := (acc.btotal + cur.st_blocks) % (2 ^ 64),
        maxuser := max acc.maxuser (userOf cfg env cur.st_uid).length,
        maxgroup := max acc.maxgroup (groupOf cfg env cur.st_gid).length,
        maxflags := max acc.maxflags (if cfg.f_flags then 1 else 0),
        mallocCalls := acc.mallocCalls + 1,
        attached := acc.attached ++ [acc.mallocCalls],
        bcfile := acc.bcfile || cur.chrOrBlk,
        entries := acc.entries + 1 }
    else
      { acc with
        maxlen := max acc.maxlen cur.fts_name.length,
        maxblock := max acc.maxblock cur.st_blocks,
        maxinode := max acc.maxinode cur.st_ino,
        maxnlink := max acc.maxnlink cur.st_nlink,
        maxsize := max acc.maxsize cur.st_size,
        btotal := (acc.btotal + cur.st_blocks) % (2 ^ 64),
        entries := acc.entries + 1 }
  else
    { acc with
      maxlen := max acc.maxlen cur.fts_name.length,
      entries := acc.entries + 1 }

/-- Folding the per-survivor update over a survivor list. -/
def accFoldS (cfg : Config) (env : Env) (sv : List Ent) (acc : DAcc) : DAcc :=
  sv.foldl (accStepS cfg env) acc

theorem survives_true_of (cfg : Config) (pNull : Bool) (cur : Ent)
    (h1 : isNodeErr cur = false)
    (h2 : (pNull && (cur.fts_info == Info.D && !cfg.f_listdir)) = false)
    (h3 : (!pNull && (headIsDot cur.fts_name && !cfg.f_listdot)) = false) :
    survives cfg pNull cur = true := by
  unfold survives
  rw [h1]
  cases pNull
  · simp only [Bool.not_false, Bool.true_and] at h3
    simp [h3]
  · simp only [Bool.true_and] at h2
    simp [h2]

/-- With no failing allocation, the `display` scan loop runs to
completion and computes exactly the fold of the per-survivor update
over the surviving entries, reporting each error/not-stat-able entry
and setting `rval` to 1 when there is one. -/
theorem dLoop_eq (cfg : Config) (env : Env) (pNull : Bool)
    (hna : ∀ n, env.allocFails n = false) (l : List Ent) :
    ∀ (acc : DAcc) (st : RState),
      dLoop cfg env pNull l acc st =
        (accFoldS cfg env (survivors cfg pNull l) acc,
         { st with
           rval := if l.any isNodeErr then 1 else st.rval,
           stderr := st.stderr ++ errReports l },
         false) := by
  induction l with
  | nil =>
    intro acc st
    simp [dLoop, survivors, accFoldS, errReports]
  | cons cur rest ih =>
    intro acc st
    by_cases herr : isNodeErr cur = true
    · have hsv : survives cfg pNull cur = false := by simp [survives, herr]
      simp only [dLoop, herr, if_true]
      rw [ih]
      simp [survivors, errReports, hsv, herr, List.filter_cons]
    · rw [Bool.not_eq_true] at herr
      by_cases hskip1 : (pNull && (cur.fts_info == Info.D && !cfg.f_listdir))
        = true
      · have hsv : survives cfg pNull cur = false := by
          rw [Bool.and_eq_true] at hskip1
          unfold survives
          rw [herr, hskip1.1]
          simp [hskip1.2]
        simp only [dLoop, herr, hskip1]
        simp only [Bool.false_eq_true, if_false, if_true]
        rw [ih]
        simp [survivors, errReports, hsv, herr, List.filter_cons]
      · rw [Bool.not_eq_true] at hskip1
        by_cases hskip2 : (!pNull && (headIsDot cur.fts_name && !cfg.f_listdot))
          = true
        · have hsv : survives cfg pNull cur = false := by
            rw [Bool.and_eq_true] at hskip2
            unfold survives
            rw [herr]
            have hp : pNull = false := by
              cases pNull
              · rfl
              · simp at hskip2
            rw [hp]
            simp [hskip2.2]
          simp only [dLoop, herr, hskip1, hskip2]
          simp only [Bool.false_eq_true, if_false, if_true]
          rw [ih]
          simp [survivors, errReports, hsv, herr, List.filter_cons]
        · rw [Bool.not_eq_true] at hskip2
          have hsv : survives cfg pNull cur = true :=
            survives_true_of cfg pNull cur herr hskip1 hskip2
          have hstep : dLoop cfg env pNull (cur :: rest) acc st =
              dLoop cfg env pNull rest (accStepS cfg env acc cur) st := by
            simp only [dLoop, herr, hskip1, hskip2]
            simp only [Bool.false_eq_true, if_false]
            unfold accStepS
            by_cases hns : needstats cfg = true
            · by_cases hlf : cfg.f_longform = true
              · simp only [hns, hlf, if_true, hna, Bool.false_eq_true,
                  if_false]
              · rw [Bool.not_eq_true] at hlf
                simp only [hns, hlf, if_true, Bool.false_eq_true, if_false]
            · rw [Bool.not_eq_true] at hns
              simp only [hns, Bool.false_eq_true, if_false]
          rw [hstep, ih]
          have hfold : accFoldS cfg env (survivors cfg pNull (cur :: rest)) acc
              = accFoldS cfg env (survivors cfg pNull rest)
                  (accStepS cfg env acc cur) := by
            unfold survivors
            rw [List.filter_cons, hsv]
            rfl
          rw [hfold]
          simp [survivors, errReports, hsv, herr, List.filter_cons]

theorem accFoldS_maxfield (cfg : Config) (env : Env) (get : DAcc → Nat)
    (f : Ent → Nat)
    (hstep : ∀ acc cur, get (accStepS cfg env acc cur) = max (get acc) (f cur)) :
    ∀ (sv : List Ent) (acc : DAcc),
      get (accFoldS cfg env sv acc) = max (get acc) (trueMax f sv)
  | [], acc => by simp [accFoldS, trueMax]
  | cur :: rest, acc => by
    have h1 : accFoldS cfg env (cur :: rest) acc
        = accFoldS cfg env rest (accStepS cfg env acc cur) := rfl
    have h2 : trueMax f (cur :: rest) = max (f cur) (trueMax f rest) := rfl
    rw [h1, accFoldS_maxfield cfg env get f hstep rest _, hstep, h2,
      Nat.max_assoc]

theorem accFoldS_frame (cfg : Config) (env : Env) {γ : Type} (get : DAcc → γ)
    (hstep : ∀ acc cur, get (accStepS cfg env acc cur) = get acc) :
    ∀ (sv : List Ent) (acc : DAcc), get (accFoldS cfg env sv acc) = get acc
  | [], _ => rfl
  | cur :: rest, acc => by
    have h1 : accFoldS cfg env (cur :: rest) acc
        = accFoldS cfg env rest (accStepS cfg env acc cur) := rfl
    rw [h1, accFoldS_frame cfg env get hstep rest _, hstep]

theorem accStepS_entries (cfg : Config) (env : Env) (acc : DAcc) (cur : Ent) :
    (accStepS cfg env acc cur).entries = acc.entries + 1 := by
  unfold accStepS
  split_ifs <;> rfl

theorem accFoldS_entries (cfg : Config) (env : Env) :
    ∀ (sv : List Ent) (acc : DAcc),
      (accFoldS cfg env sv acc).entries = acc.entries + sv.length
  | [], _ => rfl
  | cur :: rest, acc => by
    have h1 : accFoldS cfg env (cur :: rest) acc
        = accFoldS cfg env rest (accStepS cfg env acc cur) := rfl
    rw [h1, accFoldS_entries cfg env rest _, accStepS_entries]
    simp only [List.length_cons]
    omega

theorem accStepS_btotal (cfg : Config) (env : Env) (acc : DAcc) (cur : Ent)
    (hns : needstats cfg = true) :
    (accStepS cfg env acc cur).btotal = (acc.btotal + cur.st_blocks) % 2 ^ 64 := by
  unfold accStepS
  rw [hns]
  by_cases hlf : cfg.f_longform = true
  · rw [hlf]
    rfl
  · rw [Bool.not_eq_true] at hlf
    rw [hlf]
    rfl

theorem accFoldS_btotal (cfg : Config) (env : Env) (hns : needstats cfg = true) :
    ∀ (sv : List Ent) (acc : DAcc), acc.btotal < 2 ^ 64 →
      (accFoldS cfg env sv acc).btotal =
        (acc.btotal + (sv.map (fun e => e.st_blocks)).sum) % 2 ^ 64
  | [], acc, hlt => by
    simp only [accFoldS, List.foldl_nil, List.map_nil, List.sum_nil,
      Nat.add_zero]
    omega
  | cur :: rest, acc, hlt => by
    have h1 : accFoldS cfg env (cur :: rest) acc
        = accFoldS cfg env rest (accStepS cfg env acc cur) := rfl
    have h2 : (accStepS cfg env acc cur).btotal < 2 ^ 64 := by
      rw [accStepS_btotal cfg env acc cur hns]
      exact Nat.mod_lt _ (by norm_num)
    rw [h1, accFoldS_btotal cfg env hns rest _ h2,
      accStepS_btotal cfg env acc cur hns,
      Nat.mod_add_mod, List.map_cons, List.sum_cons, Nat.add_assoc]

theorem accStepS_bcfile (cfg : Config) (env : Env) (acc : DAcc) (cur : Ent)
    (hns : needstats cfg = true) (hlf : cfg.f_longform = true) :
    (accStepS cfg env acc cur).bcfile = (acc.bcfile || cur.chrOrBlk) := by
  unfold accStepS
  rw [hns, hlf]
  rfl

theorem accFoldS_bcfile (cfg : Config) (env : Env) (hns : needstats cfg = true)
    (hlf : cfg.f_longform = true) :
    ∀ (sv : List Ent) (acc : DAcc),
      (accFoldS cfg env sv acc).bcfile =
        (acc.bcfile || sv.any (fun e => e.chrOrBlk))
  | [], _ => by simp [accFoldS]
  | cur :: rest, acc => by
    have h1 : accFoldS cfg env (cur :: rest) acc
        = accFoldS cfg env rest (accStepS cfg env acc cur) := rfl
    rw [h1, accFoldS_bcfile cfg env hns hlf rest _,
      accStepS_bcfile cfg env acc cur hns hlf]
    simp [Bool.or_assoc]

theorem accStepS_alloc (cfg : Config) (env : Env) (acc : DAcc) (cur : Ent)
    (hns : needstats cfg = true) (hlf : cfg.f_longform = true) :
    (accStepS cfg env acc cur).attached = acc.attached ++ [acc.mallocCalls] ∧
    (accStepS cfg env acc cur).mallocCalls = acc.mallocCalls + 1 := by
  unfold accStepS
  rw [hns, hlf]
  exact ⟨rfl, rfl⟩

theorem accFoldS_alloc (cfg : Config) (env : Env) (hns : needstats cfg = true)
    (hlf : cfg.f_longform = true) :
    ∀ (sv : List Ent) (acc : DAcc),
      (accFoldS cfg env sv acc).attached =
        acc.attached ++ idRange acc.mallocCalls sv.length ∧
      (accFoldS cfg env sv acc).mallocCalls = acc.mallocCalls + sv.length
  | [], acc => by simp [accFoldS, idRange]
  | cur :: rest, acc => by
    have h1 : accFoldS cfg env (cur :: rest) acc
        = accFoldS cfg env rest (accStepS cfg env acc cur) := rfl
    have hstep := accStepS_alloc cfg env acc cur hns hlf
    have hrec := accFoldS_alloc cfg env hns hlf rest (accStepS cfg env acc cur)
    constructor
    · rw [h1, hrec.1, hstep.1, hstep.2]
      have hr : idRange acc.mallocCalls (cur :: rest).length
          = acc.mallocCalls :: idRange (acc.mallocCalls + 1) rest.length := rfl
      rw [hr]
      simp
    · rw [h1, hrec.2, hstep.2]
      simp only [List.length_cons]
      omega

theorem accStepS_attached_frame (cfg : Config) (env : Env) (acc : DAcc)
    (cur : Ent) (h : ¬(needstats cfg = true ∧ cfg.f_longform = true)) :
    (accStepS cfg env acc cur).attached = acc.attached := by
  unfold accStepS
  by_cases hns : needstats cfg = true
  · have hlf : cfg.f_longform = false := by
      rcases Bool.eq_false_or_eq_true cfg.f_longform with hh | hh
      · exact absurd ⟨hns, hh⟩ h
      · exact hh
    rw [hns, hlf]
    rfl
  · rw [Bool.not_eq_true] at hns
    rw [hns]
    rfl

/-- When no entry of the list survives filtering, the `display` scan
leaves the accumulator untouched (in particular it allocates nothing)
and only reports the error entries, regardless of the allocation
oracle. -/
theorem dLoop_noSurvivors (cfg : Config) (env : Env) (pNull : Bool) :
    ∀ (l : List Ent) (acc : DAcc) (st : RState),
      survivors cfg pNull l = [] →
      dLoop cfg env pNull l acc st =
        (acc,
         { st with
           rval := if l.any isNodeErr then 1 else st.rval,
           stderr := st.stderr ++ errReports l },
         false) := by
  intro l
  induction l with
  | nil =>
    intro acc st _
    simp [dLoop, errReports]
  | cons cur rest ih =>
    intro acc st hsv
    have hcur : survives cfg pNull cur = false := by
      by_contra hc
      rw [Bool.not_eq_false] at hc
      have : survivors cfg pNull (cur :: rest) =
          cur :: survivors cfg pNull rest := by
        unfold survivors
        simp [List.filter_cons, hc]
      rw [this] at hsv
      exact List.cons_ne_nil _ _ hsv
    have hrest : survivors cfg pNull rest = [] := by
      unfold survivors at hsv ⊢
      rw [List.filter_cons, hcur] at hsv
      simpa using hsv
    by_cases herr : isNodeErr cur = true
    · simp only [dLoop, herr, if_true]
      rw [ih _ _ hrest]
      simp [errReports, herr, List.filter_cons]
    · rw [Bool.not_eq_true] at herr
      by_cases hskip1 : (pNull && (cur.fts_info == Info.D && !cfg.f_listdir))
        = true
      · simp only [dLoop, herr, hskip1, Bool.false_eq_true, if_false, if_true]
        rw [ih _ _ hrest]
        simp [errReports, herr, List.filter_cons]
      · rw [Bool.not_eq_true] at hskip1
        by_cases hskip2 :
            (!pNull && (headIsDot cur.fts_name && !cfg.f_listdot)) = true
        · simp only [dLoop, herr, hskip1, hskip2, Bool.false_eq_true,
            if_false, if_true]
          rw [ih _ _ hrest]
          simp [errReports, herr, List.filter_cons]
        · rw [Bool.not_eq_true] at hskip2
          exact absurd (survives_true_of cfg pNull cur herr hskip1 hskip2)
            (by rw [hcur]; exact Bool.false_ne_true)

/-- The specification-side descriptor: every aggregate is the true
maximum (or the block-count sum, taken modulo the unsigned-long width)
over exactly the surviving entries of the sibling list. -/
def specDesc (cfg : Config) (env : Env) (pNull : Bool) (l : List Ent) :
    DISPLAY :=
  let sv := survivors cfg pNull l
  { list := l
    entries := sv.length
    maxlen := trueMax (fun e => e.fts_name.length) sv
    bcfile := needstats cfg && (cfg.f_longform &&
      sv.any (fun e => e.chrOrBlk))
    btotal := if needstats cfg
      then ((sv.map (fun e => e.st_blocks)).sum) % 2 ^ 64 else 0
    s_block := if needstats cfg
      then decLen (trueMax (fun e => e.st_blocks) sv) else 0
    s_flags := if needstats cfg && cfg.f_longform
      then trueMax (fun _ => if cfg.f_flags then 1 else 0) sv else 0
    s_group := if needstats cfg && cfg.f_longform
      then trueMax (fun e => (groupOf cfg env e.st_gid).length) sv else 0
    s_inode := if needstats cfg
      then decLen (trueMax (fun e => e.st_ino) sv) else 0
    s_nlink := if needstats cfg
      then decLen (trueMax (fun e => e.st_nlink) sv) else 0
    s_size := if needstats cfg
      then decLen (trueMax (fun e => e.st_size) sv) else 0
    s_user := if needstats cfg && cfg.f_longform
      then trueMax (fun e => (userOf cfg env e.st_uid).length) sv else 0 }

theorem accStepS_maxlen (cfg : Config) (env : Env) (acc : DAcc) (cur : Ent) :
    (accStepS cfg env acc cur).maxlen = max acc.maxlen cur.fts_name.length := by
  unfold accStepS
  split_ifs <;> rfl

theorem accStepS_maxstat (cfg : Config) (env : Env) (acc : DAcc) (cur : Ent)
    (hns : needstats cfg = true) :
    (accStepS cfg env acc cur).maxblock = max acc.maxblock cur.st_blocks ∧
    (accStepS cfg env acc cur).maxinode = max acc.maxinode cur.st_ino ∧
    (accStepS cfg env acc cur).maxnlink = max acc.maxnlink cur.st_nlink ∧
    (accStepS cfg env acc cur).maxsize = max acc.maxsize cur.st_size := by
  unfold accStepS
  rw [hns]
  by_cases hlf : cfg.f_longform = true
  · rw [hlf]
    exact ⟨rfl, rfl, rfl, rfl⟩
  · rw [Bool.not_eq_true] at hlf
    rw [hlf]
    exact ⟨rfl, rfl, rfl, rfl⟩

theorem accStepS_maxlong (cfg : Config) (env : Env) (acc : DAcc) (cur : Ent)
    (hns : needstats cfg = true) (hlf : cfg.f_longform = true) :
    (accStepS cfg env acc cur).maxuser
      = max acc.maxuser (userOf cfg env cur.st_uid).length ∧
    (accStepS cfg env acc cur).maxgroup
      = max acc.maxgroup (groupOf cfg env cur.st_gid).length ∧
    (accStepS cfg env acc cur).maxflags
      = max acc.maxflags (if cfg.f_flags then 1 else 0) := by
  unfold accStepS
  rw [hns, hlf]
  exact ⟨rfl, rfl, rfl⟩

theorem accStepS_longframe (cfg : Config) (env : Env) (acc : DAcc) (cur : Ent)
    (hlf : cfg.f_longform = false) :
    (accStepS cfg env acc cur).maxuser = acc.maxuser ∧
    (accStepS cfg env acc cur).maxgroup = acc.maxgroup ∧
    (accStepS cfg env acc cur).maxflags = acc.maxflags ∧
    (accStepS cfg env acc cur).bcfile = acc.bcfile ∧
    (accStepS cfg env acc cur).attached = acc.attached := by
  unfold accStepS
  rw [hlf]
  by_cases hns : needstats cfg = true
  · rw [hns]
    exact ⟨rfl, rfl, rfl, rfl, rfl⟩
  · rw [Bool.not_eq_true] at hns
    rw [hns]
    exact ⟨rfl, rfl, rfl, rfl, rfl⟩

/-- Unfolding of `display` once the scan loop's outcome is known and no
abort happened. -/
theorem display_eq_of (cfg : Config) (env : Env) (pNull : Bool) (l : List Ent)
    (st : RState) (acc : DAcc) (st1 : RState)
    (hl : l.isEmpty = false)
    (hdl : dLoop cfg env pNull l {} st = (acc, st1, false)) :
    display cfg env pNull l st =
      if acc.entries = 0 then ⟨st1, none, acc.attached, [], false⟩
      else
        ⟨{ st1 with
           stdout := st1.stdout ++ [OutEvent.render (mkDesc cfg acc l)],
           output := true },
         some (mkDesc cfg acc l), acc.attached,
         if cfg.f_longform then acc.attached else [], false⟩ := by
  unfold display
  rw [hl]
  simp only [Bool.false_eq_true, if_false]
  rw [hdl]

/-- The aggregates `display` hands to the print function equal the
true aggregates over exactly the surviving entries. -/
theorem mkDesc_eq_specDesc (cfg : Config) (env : Env) (pNull : Bool)
    (l : List Ent) :
    mkDesc cfg (accFoldS cfg env (survivors cfg pNull l) {}) l
      = specDesc cfg env pNull l := by
  have hent : (accFoldS cfg env (survivors cfg pNull l) {}).entries
      = (survivors cfg pNull l).length := by
    have h1 := accFoldS_entries cfg env (survivors cfg pNull l) ({} : DAcc)
    have h0 : (({} : DAcc)).entries = 0 := rfl
    omega
  have hml : (accFoldS cfg env (survivors cfg pNull l) {}).maxlen
      = trueMax (fun e => e.fts_name.length) (survivors cfg pNull l) := by
    rw [accFoldS_maxfield cfg env (fun a => a.maxlen)
      (fun e => e.fts_name.length) (accStepS_maxlen cfg env)
      (survivors cfg pNull l) {}]
    exact Nat.zero_max _
  unfold mkDesc specDesc
  by_cases hns : needstats cfg = true
  · have hmb : (accFoldS cfg env (survivors cfg pNull l) {}).maxblock
        = trueMax (fun e => e.st_blocks) (survivors cfg pNull l) := by
      rw [accFoldS_maxfield cfg env (fun a => a.maxblock)
        (fun e => e.st_blocks)
        (fun acc cur => (accStepS_maxstat cfg env acc cur hns).1)
        (survivors cfg pNull l) {}]
      exact Nat.zero_max _
    have hmi : (accFoldS cfg env (survivors cfg pNull l) {}).maxinode
        = trueMax (fun e => e.st_ino) (survivors cfg pNull l) := by
      rw [accFoldS_maxfield cfg env (fun a => a.maxinode)
        (fun e => e.st_ino)
        (fun acc cur => (accStepS_maxstat cfg env acc cur hns).2.1)
        (survivors cfg pNull l) {}]
      exact Nat.zero_max _
    have hmn : (accFoldS cfg env (survivors cfg pNull l) {}).maxnlink
        = trueMax (fun e => e.st_nlink) (survivors cfg pNull l) := by
      rw [accFoldS_maxfield cfg env (fun a => a.maxnlink)
        (fun e => e.st_nlink)
        (fun acc cur => (accStepS_maxstat cfg env acc cur hns).2.2.1)
        (survivors cfg pNull l) {}]
      exact Nat.zero_max _
    have hms : (accFoldS cfg env (survivors cfg pNull l) {}).maxsize
        = trueMax (fun e => e.st_size) (survivors cfg pNull l) := by
      rw [accFoldS_maxfield cfg env (fun a => a.maxsize)
        (fun e => e.st_size)
        (fun acc cur => (accStepS_maxstat cfg env acc cur hns).2.2.2)
        (survivors cfg pNull l) {}]
      exact Nat.zero_max _
    have hbt : (accFoldS cfg env (survivors cfg pNull l) {}).btotal
        = ((survivors cfg pNull l).map (fun e => e.st_blocks)).sum % 2 ^ 64 := by
      have h1 := accFoldS_btotal cfg env hns (survivors cfg pNull l)
        ({} : DAcc) (by norm_num)
      have h0 : (({} : DAcc)).btotal = 0 := rfl
      rw [h1, h0, Nat.zero_add]
    by_cases hlf : cfg.f_longform = true
    · have hmu : (accFoldS cfg env (survivors cfg pNull l) {}).maxuser
          = trueMax (fun e => (userOf cfg env e.st_uid).length)
              (survivors cfg pNull l) := by
        rw [accFoldS_maxfield cfg env (fun a => a.maxuser)
          (fun e => (userOf cfg env e.st_uid).length)
          (fun acc cur => (accStepS_maxlong cfg env acc cur hns hlf).1)
          (survivors cfg pNull l) {}]
        exact Nat.zero_max _
      have hmg : (accFoldS cfg env (survivors cfg pNull l) {}).maxgroup
          = trueMax (fun e => (groupOf cfg env e.st_gid).length)
              (survivors cfg pNull l) := by
        rw [accFoldS_maxfield cfg env (fun a => a.maxgroup)
          (fun e => (groupOf cfg env e.st_gid).length)
          (fun acc cur => (accStepS_maxlong cfg env acc cur hns hlf).2.1)
          (survivors cfg pNull l) {}]
        exact Nat.zero_max _
      have hmf : (accFoldS cfg env (survivors cfg pNull l) {}).maxflags
          = trueMax (fun _ => if cfg.f_flags then 1 else 0)
              (survivors cfg pNull l) := by
        rw [accFoldS_maxfield cfg env (fun a => a.maxflags)
          (fun _ => if cfg.f_flags then 1 else 0)
          (fun acc cur => (accStepS_maxlong cfg env acc cur hns hlf).2.2)
          (survivors cfg pNull l) {}]
        exact Nat.zero_max _
      have hbc : (accFoldS cfg env (survivors cfg pNull l) {}).bcfile
          = (survivors cfg pNull l).any (fun e => e.chrOrBlk) := by
        rw [accFoldS_bcfile cfg env hns hlf (survivors cfg pNull l) {}]
        rfl
      simp [hns, hlf, hent, hml, hmb, hmi, hmn, hms, hbt, hmu, hmg, hmf, hbc]
    · rw [Bool.not_eq_true] at hlf
      have hfr := accStepS_longframe cfg env
      have hmu : (accFoldS cfg env (survivors cfg pNull l) {}).maxuser = 0 := by
        rw [accFoldS_frame cfg env (fun a => a.maxuser)
          (fun acc cur => (hfr acc cur hlf).1) (survivors cfg pNull l) {}]
      have hmg : (accFoldS cfg env (survivors cfg pNull l) {}).maxgroup
          = 0 := by
        rw [accFoldS_frame cfg env (fun a => a.maxgroup)
          (fun acc cur => (hfr acc cur hlf).2.1) (survivors cfg pNull l) {}]
      have hmf : (accFoldS cfg env (survivors cfg pNull l) {}).maxflags
          = 0 := by
        rw [accFoldS_frame cfg env (fun a => a.maxflags)
          (fun acc cur => (hfr acc cur hlf).2.2.1) (survivors cfg pNull l) {}]
      have hbc : (accFoldS cfg env (survivors cfg pNull l) {}).bcfile
          = false := by
        rw [accFoldS_frame cfg env (fun a => a.bcfile)
          (fun acc cur => (hfr acc cur hlf).2.2.2.1) (survivors cfg pNull l) {}]
      simp [hns, hlf, hent, hml, hmb, hmi, hmn, hms, hbt, hmu, hmg, hmf, hbc]
  · rw [Bool.not_eq_true] at hns
    simp [hns, hent, hml]

/-- C6: for every sibling list whose filtered set is non-empty (so a
descriptor is actually produced) and an allocation oracle that never
fails, the descriptor handed to the print function is exactly the
specification descriptor: every maximum-width aggregate is the true
maximum over exactly the surviving entries, the block total sums over
exactly those entries, and suppressed entries (error nodes, filtered
dotfiles, deferred root directories) influence no aggregate. -/
theorem C6_theorem (cfg : Config) (env : Env) (pNull : Bool) (l : List Ent)
    (st : RState) (hna : ∀ n, env.allocFails n = false)
    (hsv : survivors cfg pNull l ≠ []) :
    (display cfg env pNull l st).rendered = some (specDesc cfg env pNull l) := by
  have hlne : l.isEmpty = false := by
    cases l
    · exact absurd rfl hsv
    · rfl
  have hdl := dLoop_eq cfg env pNull hna l {} st
  rw [display_eq_of cfg env pNull l st _ _ hlne hdl]
  have hne : ¬((accFoldS cfg env (survivors cfg pNull l) {}).entries = 0) := by
    have h1 := accFoldS_entries cfg env (survivors cfg pNull l) ({} : DAcc)
    have h0 : (({} : DAcc)).entries = 0 := rfl
    have hlen : (survivors cfg pNull l).length ≠ 0 := by
      intro hz
      exact hsv (List.length_eq_zero.mp hz)
    omega
  rw [if_neg hne]
  show some (mkDesc cfg (accFoldS cfg env (survivors cfg pNull l) {}) l) = _
  rw [mkDesc_eq_specDesc]

theorem C6_witness :
    (display { f_longform := true } ⟨fun _ => none, fun _ => none,
        fun _ => false⟩ false [mkEnt ['a'] 1 Info.F] ⟨0, false, [], []⟩).rendered
      = some (specDesc { f_longform := true } ⟨fun _ => none, fun _ => none,
          fun _ => false⟩ false [mkEnt ['a'] 1 Info.F]) :=
  C6_theorem { f_longform := true } ⟨fun _ => none, fun _ => none,
    fun _ => false⟩ false [mkEnt ['a'] 1 Info.F] ⟨0, false, [], []⟩
    (fun _ => rfl) (by decide)

/-- C5 counterexample: in long format, when the second annotation
allocation fails, `display` returns through the early-return of ls.c
line 558 without running the free loop, leaking the annotation already
attached to the first entry: allocation id 0 is attached but nothing
is freed. -/
theorem C5_counterexample :
    (display { f_longform := true } ⟨fun _ => none, fun _ => none,
        fun n => n == 1⟩ false [mkEnt ['a'] 1 Info.F, mkEnt ['b'] 1 Info.F]
        ⟨0, false, [], []⟩).attached = [0] ∧
    (display { f_longform := true } ⟨fun _ => none, fun _ => none,
        fun n => n == 1⟩ false [mkEnt ['a'] 1 Info.F, mkEnt ['b'] 1 Info.F]
        ⟨0, false, [], []⟩).freed = [] ∧
    (display { f_longform := true } ⟨fun _ => none, fun _ => none,
        fun n => n == 1⟩ false [mkEnt ['a'] 1 Info.F, mkEnt ['b'] 1 Info.F]
        ⟨0, false, [], []⟩).aborted = true := by
  refine ⟨?_, ?_, ?_⟩ <;> rfl

/-- C5 amended: as long as no annotation allocation fails, every
annotation attached during one `display` call is released before the
call returns, on the successful path as well as when rendering reported
errors; but on the allocation-failure path annotations attached to
earlier entries of the same call are not released (see the
counterexample). -/
theorem C5_amended (cfg : Config) (env : Env) (pNull : Bool) (l : List Ent)
    (st : RState) (hna : ∀ n, env.allocFails n = false) :
    (display cfg env pNull l st).freed = (display cfg env pNull l st).attached ∧
    (display cfg env pNull l st).aborted = false := by
  by_cases hl : l.isEmpty = true
  · unfold display
    rw [hl]
    exact ⟨rfl, rfl⟩
  · rw [Bool.not_eq_true] at hl
    have hdl := dLoop_eq cfg env pNull hna l {} st
    rw [display_eq_of cfg env pNull l st _ _ hl hdl]
    by_cases hent : (accFoldS cfg env (survivors cfg pNull l) {}).entries = 0
    · rw [if_pos hent]
      have hsvnil : survivors cfg pNull l = [] := by
        have h1 := accFoldS_entries cfg env (survivors cfg pNull l) ({} : DAcc)
        have h0 : (({} : DAcc)).entries = 0 := rfl
        have h2 : (survivors cfg pNull l).length = 0 := by omega
        exact List.length_eq_zero.mp h2
      refine ⟨?_, rfl⟩
      show ([] : List Nat) = (accFoldS cfg env (survivors cfg pNull l) {}).attached
      rw [hsvnil]
      rfl
    · rw [if_neg hent]
      refine ⟨?_, rfl⟩
      show (if cfg.f_longform = true
          then (accFoldS cfg env (survivors cfg pNull l) {}).attached
          else []) = (accFoldS cfg env (survivors cfg pNull l) {}).attached
      by_cases hlf : cfg.f_longform = true
      · rw [if_pos hlf]
      · rw [Bool.not_eq_true] at hlf
        rw [if_neg (by rw [hlf]; exact Bool.false_ne_true)]
        have hfr := accFoldS_frame cfg env (fun a => a.attached)
          (fun acc cur => (accStepS_longframe cfg env acc cur hlf).2.2.2.2)
          (survivors cfg pNull l) {}
        rw [hfr]

theorem C5_amended_witness :
    (display { f_longform := true } ⟨fun _ => none, fun _ => none,
        fun _ => false⟩ false [mkEnt ['a'] 1 Info.F, mkEnt ['b'] 1 Info.F]
        ⟨0, false, [], []⟩).freed
      = (display { f_longform := true } ⟨fun _ => none, fun _ => none,
          fun _ => false⟩ false [mkEnt ['a'] 1 Info.F, mkEnt ['b'] 1 Info.F]
          ⟨0, false, [], []⟩).attached :=
  (C5_amended { f_longform := true } ⟨fun _ => none, fun _ => none,
    fun _ => false⟩ false [mkEnt ['a'] 1 Info.F, mkEnt ['b'] 1 Info.F]
    ⟨0, false, [], []⟩ (fun _ => rfl)).1

/-- C9 counterexample: a root sibling list whose only entry is an
error node has zero survivors, yet `display` writes a line to the
error channel and flips the run-wide failure flag on this path,
contradicting the claimed absence of side effects. -/
theorem C9_counterexample :
    survivors {} true [mkEnt ['x'] 0 Info.ERR] = [] ∧
    (display {} ⟨fun _ => none, fun _ => none, fun _ => false⟩ true
        [mkEnt ['x'] 0 Info.ERR] ⟨0, false, [], []⟩).st.rval = 1 ∧
    (display {} ⟨fun _ => none, fun _ => none, fun _ => false⟩ true
        [mkEnt ['x'] 0 Info.ERR] ⟨0, false, [], []⟩).st.stderr
      = [ErrLine.nodeErr ['x'] 0] := by
  refine ⟨rfl, rfl, rfl⟩

/-- C9 amended: when zero entries survive filtering (including the
absent/empty list), `display` produces no standard output, leaves the
'has anything been printed' flag unchanged, renders nothing and
allocates nothing; however error/not-stat-able entries encountered
during filtering are still reported on the error channel and flip the
failure flag; an absent/empty list has no effects at all. -/
theorem C9_amended (cfg : Config) (env : Env) (pNull : Bool) (l : List Ent)
    (st : RState) (hsv : survivors cfg pNull l = []) :
    (display cfg env pNull l st).st.stdout = st.stdout ∧
    (display cfg env pNull l st).st.output = st.output ∧
    (display cfg env pNull l st).rendered = none ∧
    (display cfg env pNull l st).attached = [] ∧
    (display cfg env pNull l st).st.rval
      = (if l.any isNodeErr then 1 else st.rval) ∧
    (display cfg env pNull l st).st.stderr = st.stderr ++ errReports l := by
  by_cases hl : l.isEmpty = true
  · cases l with
    | nil =>
      unfold display
      simp [errReports]
    | cons a as => simp [List.isEmpty] at hl
  · rw [Bool.not_eq_true] at hl
    have hdl := dLoop_noSurvivors cfg env pNull l {} st hsv
    rw [display_eq_of cfg env pNull l st _ _ hl hdl]
    rw [if_pos rfl]
    exact ⟨rfl, rfl, rfl, rfl, rfl, rfl⟩

theorem C9_amended_witness :
    survivors { f_listdot := false } false
        [mkEnt ['.', 'h'] 1 Info.F] = [] ∧
    (display { f_listdot := false } ⟨fun _ => none, fun _ => none,
        fun _ => false⟩ false [mkEnt ['.', 'h'] 1 Info.F]
        ⟨0, false, [], []⟩).st.stdout = [] ∧
    (display { f_listdot := false } ⟨fun _ => none, fun _ => none,
        fun _ => false⟩ false [mkEnt ['.', 'h'] 1 Info.F]
        ⟨0, false, [], []⟩).st.rval = 0 :=
  ⟨by decide,
   (C9_amended { f_listdot := false } ⟨fun _ => none, fun _ => none,
      fun _ => false⟩ false [mkEnt ['.', 'h'] 1 Info.F]
      ⟨0, false, [], []⟩ (by decide)).1,
   by
     have h := (C9_amended { f_listdot := false } ⟨fun _ => none,
       fun _ => none, fun _ => false⟩ false [mkEnt ['.', 'h'] 1 Info.F]
       ⟨0, false, [], []⟩ (by decide)).2.2.2.2.1
     rw [h]
     decide⟩

/-- Modelled from the spec: a stable insertion sort standing in for the
sorting the external walk primitive performs with the comparator it was
given. -/
def insertByCmp (c : Ent → Ent → Int) (x : Ent) : List Ent → List Ent
  | [] => [x]
  | y :: ys => if c x y ≤ 0 then x :: y :: ys else y :: insertByCmp c x ys

/-- Modelled from the spec: sort a sibling list with a three-way
comparator. -/
def sortByCmp (c : Ent → Ent → Int) : List Ent → List Ent
  | [] => []
  | x :: xs => insertByCmp c x (sortByCmp c xs)

/-- The comparator argument `traverse` hands to `fts_open` (ls.c line
367): no comparator at all under `-f`, `mastercmp` otherwise. -/
def ftsCompar (cfg : Config) : Option (Ent → Ent → Int) :=
  if cfg.f_nosort then none else some (mastercmp cfg)

/-- Modelled from the spec: the external `fts` walk primitive returns
each sibling list sorted by the comparator given to `fts_open`, and in
raw discovery order when none was given. -/
def ftsChildrenOrder (compar : Option (Ent → Ent → Int)) (l : List Ent) :
    List Ent :=
  match compar with
  | none => l
  | some c => sortByCmp c l

/-- One event the `fts_read` loop of `traverse` reacts to (ls.c lines
385-420): a pre-order directory visit with its children, a cycle, an
unreadable directory, a node error, or any other info value (ignored
by the switch). -/
inductive Event : Type
  | dir (e : Ent) (children : List Ent)
  | cycle (nm : List Char)
  | dnr (nm : List Char) (errno : Nat)
  | errEv (nm : List Char) (errno : Nat)
  | other
  deriving Repr

/-- The `fts_read` event loop of `traverse` (ls.c lines 385-420):
hidden non-root directories are skipped, headers are printed per the
`output`/argc rule, children are displayed, cycles are reported
without touching `rval`, unreadable directories and node errors are
reported and set `rval`. -/
def evLoop (cfg : Config) (env : Env) (argc : Nat) :
    List Event → RState → RState
  | [], st => st
  | Event.dir e kids :: rest, st =>
    if headIsDot e.fts_name && ((e.fts_level != 0) && !cfg.f_listdot) then
      evLoop cfg env argc rest st
    else
      let st1 :=
        if st.output then
          { st with stdout := st.stdout ++ [OutEvent.header e.fts_path true] }
        else if 1 < argc then
          { st with
            stdout := st.stdout ++ [OutEvent.header e.fts_path false],
            output := true }
        else st
      let st2 := (display cfg env false
        (ftsChildrenOrder (ftsCompar cfg) kids) st1).st
      evLoop cfg env argc rest st2
  | Event.cycle nm :: rest, st =>
    evLoop cfg env argc rest
      { st with stderr := st.stderr ++ [ErrLine.cycleErr nm] }
  | Event.dnr nm errno :: rest, st =>
    evLoop cfg env argc rest
      { st with rval := 1, stderr := st.stderr ++ [ErrLine.nodeErr nm errno] }
  | Event.errEv nm errno :: rest, st =>
    evLoop cfg env argc rest
      { st with rval := 1, stderr := st.stderr ++ [ErrLine.nodeErr nm errno] }
  | Event.other :: rest, st => evLoop cfg env argc rest st

/-- What one run of the external walk primitive presents to
`traverse`: whether `fts_open` fails, the root-argument children (raw,
unsorted), the event stream, and whether the final `errno` check after
`fts_read` fires. -/
structure WalkInput : Type where
  openFail : Bool
  rootkids : List Ent
  events : List Event
  readFail : Bool

/-- The traversal controller `traverse` (ls.c lines 360-427):
`fts_open` failure is fatal, the root children are displayed first
(`p = NULL`), `-d` stops there, then the event loop runs and a final
read error is reported and fatal. -/
def traverse (cfg : Config) (env : Env) (argc : Nat) (w : WalkInput)
    (st : RState) : RState :=
  if w.openFail then
    { st with rval := 1, stderr := st.stderr ++ [ErrLine.openErr] }
  else
    let st1 := (display cfg env true
      (ftsChildrenOrder (ftsCompar cfg) w.rootkids) st).st
    if cfg.f_listdir then st1
    else
      let st2 := evLoop cfg env argc w.events st1
      if w.readFail then
        { st2 with rval := 1, stderr := st2.stderr ++ [ErrLine.readErr] }
      else st2

/-- C10: when no-sort mode (`-f`) is on, the walk is opened with no
comparator at all, and every sibling list passes through the walk
primitive in raw discovery order — no root-level directory grouping,
no demotion of not-stat-able entries, no error special case. -/
theorem C10_theorem (cfg : Config) (h : cfg.f_nosort = true) :
    ftsCompar cfg = none ∧
    ∀ l : List Ent, ftsChildrenOrder (ftsCompar cfg) l = l := by
  have hc : ftsCompar cfg = none := by simp [ftsCompar, h]
  exact ⟨hc, fun l => by rw [hc]; rfl⟩

theorem C10_witness :
    ftsCompar { f_nosort := true } = none ∧
    ftsChildrenOrder (ftsCompar { f_nosort := true })
        [mkEnt ['f'] 0 Info.F, mkEnt ['e'] 0 Info.ERR, mkEnt ['d'] 0 Info.D]
      = [mkEnt ['f'] 0 Info.F, mkEnt ['e'] 0 Info.ERR, mkEnt ['d'] 0 Info.D] :=
  ⟨(C10_theorem { f_nosort := true } rfl).1,
   (C10_theorem { f_nosort := true } rfl).2 _⟩

theorem insertByCmp_any (c : Ent → Ent → Int) (x : Ent) (p : Ent → Bool) :
    ∀ l : List Ent, (insertByCmp c x l).any p = (p x || l.any p)
  | [] => by simp [insertByCmp]
  | y :: ys => by
    unfold insertByCmp
    by_cases h : c x y ≤ 0
    · rw [if_pos h]
      simp
    · rw [if_neg h]
      simp only [List.any_cons, insertByCmp_any c x p ys]
      cases p x <;> cases p y <;> simp

theorem sortByCmp_any (c : Ent → Ent → Int) (p : Ent → Bool) :
    ∀ l : List Ent, (sortByCmp c l).any p = l.any p
  | [] => rfl
  | x :: xs => by
    show (insertByCmp c x (sortByCmp c xs)).any p = (x :: xs).any p
    rw [insertByCmp_any, sortByCmp_any c p xs]
    rfl

theorem ftsChildrenOrder_any (compar : Option (Ent → Ent → Int))
    (p : Ent → Bool) (l : List Ent) :
    (ftsChildrenOrder compar l).any p = l.any p := by
  cases compar with
  | none => rfl
  | some c => exact sortByCmp_any c p l

/-- The failure flag after one `display` call: set exactly when the
list held an error/not-stat-able entry (allocation failures excluded
by hypothesis). -/
theorem display_rval (cfg : Config) (env : Env) (pNull : Bool) (l : List Ent)
    (st : RState) (hna : ∀ n, env.allocFails n = false) :
    (display cfg env pNull l st).st.rval
      = if l.any isNodeErr then 1 else st.rval := by
  by_cases hl : l.isEmpty = true
  · cases l with
    | nil =>
      unfold display
      simp
    | cons a as => simp [List.isEmpty] at hl
  · rw [Bool.not_eq_true] at hl
    have hdl := dLoop_eq cfg env pNull hna l {} st
    rw [display_eq_of cfg env pNull l st _ _ hl hdl]
    by_cases hent : (accFoldS cfg env (survivors cfg pNull l) {}).entries = 0
    · rw [if_pos hent]
    · rw [if_neg hent]

/-- Whether one traversal event makes `traverse` or its `display` call
flip the failure flag: unreadable-directory and node-error events
always, a processed (not skipped) directory event exactly when its
child list holds an error/not-stat-able entry; cycles never. -/
def evHasError (cfg : Config) : Event → Bool
  | Event.dir e kids =>
    !(headIsDot e.fts_name && ((e.fts_level != 0) && !cfg.f_listdot)) &&
      kids.any isNodeErr
  | Event.dnr _ _ => true
  | Event.errEv _ _ => true
  | _ => false

/-- Whether anything in a run, other than a directory cycle, is an
error. -/
def runHasNonCycleError (cfg : Config) (w : WalkInput) : Bool :=
  w.openFail || (w.rootkids.any isNodeErr ||
    (!cfg.f_listdir && (w.events.any (evHasError cfg) || w.readFail)))

theorem evLoop_rval (cfg : Config) (env : Env) (argc : Nat)
    (hna : ∀ n, env.allocFails n = false) :
    ∀ (evs : List Event) (st : RState),
      (evLoop cfg env argc evs st).rval
        = if evs.any (evHasError cfg) then 1 else st.rval := by
  intro evs
  induction evs with
  | nil =>
    intro st
    simp [evLoop]
  | cons ev rest ih =>
    intro st
    cases ev with
    | dir e kids =>
      by_cases hskip :
          (headIsDot e.fts_name && ((e.fts_level != 0) && !cfg.f_listdot))
            = true
      · have hev : evHasError cfg (Event.dir e kids) = false := by
          simp [evHasError, hskip]
        simp only [evLoop, hskip, if_true]
        rw [ih st]
        simp [hev]
      · rw [Bool.not_eq_true] at hskip
        have hev : evHasError cfg (Event.dir e kids) = kids.any isNodeErr := by
          simp [evHasError, hskip]
        simp only [evLoop, hskip, Bool.false_eq_true, if_false]
        rw [ih]
        have hrv1 : (if st.output then
            { st with stdout := st.stdout ++ [OutEvent.header e.fts_path true] }
          else if 1 < argc then
            { st with
              stdout := st.stdout ++ [OutEvent.header e.fts_path false],
              output := true }
          else st).rval = st.rval := by
          split_ifs <;> rfl
        rw [display_rval cfg env false _ _ hna,
          ftsChildrenOrder_any, hrv1, List.any_cons, hev]
        cases kids.any isNodeErr <;> cases rest.any (evHasError cfg) <;> simp
    | cycle nm =>
      simp only [evLoop]
      rw [ih]
      simp [evHasError]
    | dnr nm errno =>
      simp only [evLoop]
      rw [ih]
      have : evHasError cfg (Event.dnr nm errno) = true := rfl
      rw [List.any_cons, this]
      cases rest.any (evHasError cfg) <;> simp
    | errEv nm errno =>
      simp only [evLoop]
      rw [ih]
      have : evHasError cfg (Event.errEv nm errno) = true := rfl
      rw [List.any_cons, this]
      cases rest.any (evHasError cfg) <;> simp
    | other =>
      simp only [evLoop]
      rw [ih]
      simp [evHasError]

/-- The failure flag after a whole `traverse` run: set exactly when
some non-cycle error occurred (allocation failures excluded by
hypothesis). -/
theorem traverse_rval (cfg : Config) (env : Env) (argc : Nat) (w : WalkInput)
    (st : RState) (hna : ∀ n, env.allocFails n = false) :
    (traverse cfg env argc w st).rval
      = if runHasNonCycleError cfg w then 1 else st.rval := by
  unfold traverse runHasNonCycleError
  by_cases hop : w.openFail = true
  · rw [hop]
    simp
  · rw [Bool.not_eq_true] at hop
    rw [hop]
    simp only [Bool.false_eq_true, if_false, Bool.false_or]
    have hd := display_rval cfg env true
      (ftsChildrenOrder (ftsCompar cfg) w.rootkids) st hna
    rw [ftsChildrenOrder_any] at hd
    by_cases hld : cfg.f_listdir = true
    · rw [hld]
      simp only [Bool.not_true, Bool.false_and, Bool.or_false]
      exact hd
    · rw [Bool.not_eq_true] at hld
      rw [hld]
      simp only [Bool.false_eq_true, if_false, Bool.not_false, Bool.true_and]
      by_cases hrd : w.readFail = true
      · rw [hrd]
        simp only [if_true]
        show (1 : Nat) = _
        cases w.rootkids.any isNodeErr <;>
          cases w.events.any (evHasError cfg) <;> simp
      · rw [Bool.not_eq_true] at hrd
        rw [hrd]
        simp only [Bool.false_eq_true, if_false, Bool.or_false]
        rw [evLoop_rval cfg env argc hna w.events _, hd]
        cases w.rootkids.any isNodeErr <;>
          cases w.events.any (evHasError cfg) <;> simp

/-- C2 counterexample: a run whose only abnormal happening is a
directory cycle reports it on the error channel but leaves the failure
flag at 0, so the exit status is zero although an error occurred —
the cycle branch of ls.c lines 412-414 does not set `rval`. -/
theorem C2_counterexample :
    (traverse {} ⟨fun _ => none, fun _ => none, fun _ => false⟩ 1
        ⟨false, [], [Event.cycle ['x']], false⟩ ⟨0, false, [], []⟩).rval = 0 ∧
    (traverse {} ⟨fun _ => none, fun _ => none, fun _ => false⟩ 1
        ⟨false, [], [Event.cycle ['x']], false⟩ ⟨0, false, [], []⟩).stderr
      = [ErrLine.cycleErr ['x']] :=
  ⟨rfl, rfl⟩

/-- C2 amended: starting from a clean failure flag and with no
allocation failure, the run ends with a non-zero failure flag exactly
when some error other than a directory cycle occurred (open failure,
error/not-stat-able root child, error/not-stat-able child of a
processed directory, unreadable directory, node error, or final read
error); directory cycles are reported but never flip the flag. -/
theorem C2_amended (cfg : Config) (env : Env) (argc : Nat) (w : WalkInput)
    (st : RState) (hna : ∀ n, env.allocFails n = false) (h0 : st.rval = 0) :
    ((traverse cfg env argc w st).rval ≠ 0
      ↔ runHasNonCycleError cfg w = true) := by
  rw [traverse_rval cfg env argc w st hna, h0]
  by_cases h : runHasNonCycleError cfg w = true
  · rw [h]
    simp
  · rw [Bool.not_eq_true] at h
    rw [h]
    simp

theorem C2_amended_witness :
    ((traverse {} ⟨fun _ => none, fun _ => none, fun _ => false⟩ 1
        ⟨false, [], [Event.dnr ['u'] 13], false⟩ ⟨0, false, [], []⟩).rval ≠ 0) ∧
    runHasNonCycleError {} ⟨false, [], [Event.dnr ['u'] 13], false⟩ = true :=
  ⟨(C2_amended {} ⟨fun _ => none, fun _ => none, fun _ => false⟩ 1
      ⟨false, [], [Event.dnr ['u'] 13], false⟩ ⟨0, false, [], []⟩
      (fun _ => rfl) rfl).mpr (by decide),
   by decide⟩

/-- The `fts_options` bits `ls_main` assembles (ls.c lines 154,
202-203, 209, 269, 276, 283). -/
structure FtsOpts : Type where
  physical : Bool := true
  logical : Bool := false
  nochdir : Bool := true
  seedot : Bool := false
  nostat : Bool := false
  comfollow : Bool := false
  whiteout : Bool := false
  deriving DecidableEq, Repr

/-- The per-option-character effect of the `getopt` switch of ls.c
lines 155-259, one case per option letter, `none` for the default
(usage) case.  Note the intentional fall-through from `a` into `A`. -/
def applyOpt (cfg : Config) (fo : FtsOpts) : Char → Option (Config × FtsOpts)
  | '1' => some ({ cfg with
      f_singlecol := true, f_column := false, f_columnacross := false,
      f_longform := false, f_stream := false }, fo)
  | 'C' => some ({ cfg with
      f_column := true, f_longform := false, f_columnacross := false,
      f_singlecol := false, f_stream := false }, fo)
  | 'l' => some ({ cfg with
      f_longform := true, f_numericonly := false, f_column := false,
      f_columnacross := false, f_singlecol := false, f_stream := false }, fo)
  | 'm' => some ({ cfg with
      f_stream := true, f_column := false, f_columnacross := false,
      f_longform := false, f_singlecol := false }, fo)
  | 'x' => some ({ cfg with
      f_columnacross := true, f_column := false, f_longform := false,
      f_singlecol := false, f_stream := false }, fo)
  | 'n' => some ({ cfg with
      f_longform := true, f_numericonly := true, f_column := false,
      f_columnacross := false, f_singlecol := false, f_stream := false }, fo)
  | 'c' => some ({ cfg with f_statustime := true, f_accesstime := false }, fo)
  | 'u' => some ({ cfg with f_accesstime := true, f_statustime := false }, fo)
  | 'F' => some ({ cfg with f_type := true }, fo)
  | 'L' => some (cfg, { fo with physical := false, logical := true })
  | 'R' => some ({ cfg with f_recursive := true }, fo)
  | 'a' => some ({ cfg with f_listdot := true }, { fo with seedot := true })
  | 'A' => some ({ cfg with f_listdot := true }, fo)
  | 'd' => some ({ cfg with f_listdir := true, f_recursive := false }, fo)
  | 'f' => some ({ cfg with f_nosort := true }, fo)
  | 'g' => some (cfg, fo)
  | 'i' => some ({ cfg with f_inode := true }, fo)
  | 'k' => some ({ cfg with blocksize := 1024 }, fo)
  | 'o' => some ({ cfg with f_flags := true }, fo)
  | 'p' => some ({ cfg with f_typedir := true }, fo)
  | 'q' => some ({ cfg with f_nonprint := true }, fo)
  | 'r' => some ({ cfg with f_reversesort := true }, fo)
  | 'S' => some ({ cfg with sortkey := 1 }, fo)
  | 's' => some ({ cfg with f_size := true }, fo)
  | 'T' => some ({ cfg with f_sectime := true }, fo)
  | 't' => some ({ cfg with sortkey := 2 }, fo)
  | 'W' => some ({ cfg with f_whiteout := true }, fo)
  | _ => none

/-- Sequential option processing; the Bool is true when an invalid
option hit the usage path. -/
def parseOpts (cfg : Config) (fo : FtsOpts) :
    List Char → Config × FtsOpts × Bool
  | [] => (cfg, fo, false)
  | ch :: rest =>
    match applyOpt cfg fo ch with
    | none => (cfg, fo, true)
    | some (cfg2, fo2) => parseOpts cfg2 fo2 rest

/-- The print-function selection of ls.c lines 336-345. -/
inductive PrintSel : Type
  | scol | acol | long | stream | col
  deriving DecidableEq, Repr

def printSel (cfg : Config) : PrintSel :=
  if cfg.f_singlecol then PrintSel.scol
  else if cfg.f_columnacross then PrintSel.acol
  else if cfg.f_longform then PrintSel.long
  else if cfg.f_stream then PrintSel.stream
  else PrintSel.col

/-- The file-scope globals of ls.c that outlive one `ls_main` call:
the flag variables, `sortkey`, `blocksize` and `termwidth` (inside
`cfg`), plus `output` and `rval`. -/
structure Glob : Type where
  cfg : Config
  output : Bool
  rval : Nat
  deriving DecidableEq, Repr

/-- The globals as the C runtime initialises them at process start. -/
def initGlob : Glob := { cfg := {}, output := false, rval := 0 }

/-- Everything external one `ls_main` call consumes: terminal state,
the COLUMNS override, the ioctl answer, whether getuid() is 0, the
lookup/allocation environment and the walk's behaviour. -/
structure LsEnv : Type where
  isatty : Bool
  columnsEnv : Option Nat
  ioctlCols : Option Nat
  rootUser : Bool
  env : Env
  walk : WalkInput

/-- The observable outcome of one `ls_main` call: the globals left
behind for a possible next call, both output channels, and the return
value (`none` on the usage path, whose value is owned by the external
`usage`). -/
structure LsOut : Type where
  g : Glob
  stdout : List OutEvent
  stderr : List ErrLine
  exit : Option Nat
  ftsOpts : FtsOpts := {}

/-- The entry point `ls_main` (ls.c lines 115-352): resets `output`
and the flag variables — but not `rval`, `sortkey`, `blocksize` or
`termwidth` — applies terminal defaults, root's implicit `-A`, the
option switch, the derived fts options and block size, and runs
`traverse`, returning `rval`. -/
def ls_main (g : Glob) (opts : List Char) (nargs : Nat) (le : LsEnv) :
    LsOut :=
  let cfg0 : Config := { g.cfg with
    f_accesstime := false, f_column := false, f_columnacross := false,
    f_flags := false, f_inode := false,
    f_listdir := false, f_listdot := false, f_longform := false,
    f_newline := false, f_nonprint := false, f_nosort := false,
    f_numericonly := false, f_recursive := false, f_reversesort := false,
    f_sectime := false, f_singlecol := false, f_size := false,
    f_statustime := false, f_stream := false, f_dirname := false,
    f_type := false, f_typedir := false, f_whiteout := false }
  let cfg1 : Config :=
    if le.isatty then
      let tw := match le.columnsEnv with
        | some n => n
        | none =>
          match le.ioctlCols with
          | some wcol => if 0 < wcol then wcol else cfg0.termwidth
          | none => cfg0.termwidth
      { cfg0 with termwidth := tw, f_column := true, f_nonprint := true }
    else { cfg0 with f_singlecol := true }
  let cfg2 := if le.rootUser then { cfg1 with f_listdot := true } else cfg1
  match parseOpts cfg2 {} opts with
  | (cfg3, fo3, usageHit) =>
    if usageHit then
      { g := { cfg := cfg3, output := false, rval := g.rval },
        stdout := [], stderr := [], exit := none }
    else
      let fo4 : FtsOpts := { fo3 with
        nostat := fo3.nostat || (!cfg3.f_longform && (!cfg3.f_inode &&
          (!cfg3.f_size && (!cfg3.f_type && (!cfg3.f_typedir &&
            (cfg3.sortkey == 0)))))),
        comfollow := fo3.comfollow || (!cfg3.f_longform &&
          (!cfg3.f_listdir && !cfg3.f_type)),
        whiteout := fo3.whiteout || cfg3.f_whiteout }
      let cfg4 := if cfg3.f_longform || cfg3.f_size
        then { cfg3 with blocksize := 2 } else cfg3
      let argcEff := if nargs == 0 then 1 else nargs
      let st0 : RState :=
        { rval := g.rval, output := false, stdout := [], stderr := [] }
      let stFin := traverse cfg4 le.env argcEff le.walk st0
      { g := { cfg := cfg4, output := stFin.output, rval := stFin.rval },
        stdout := stFin.stdout, stderr := stFin.stderr,
        exit := some stFin.rval, ftsOpts := fo4 }

/-- An environment with no name lookups and no allocation failures,
for concrete runs. -/
def trivEnv : Env := ⟨fun _ => none, fun _ => none, fun _ => false⟩

def entA3 : Ent := { mkEnt ['a'] 0 Info.F with st_mtime := 2 }

def entB3 : Ent := { mkEnt ['b'] 0 Info.F with st_mtime := 1 }

/-- A run over two root files whose name order and mtime order
disagree. -/
def leSort : LsEnv :=
  { isatty := false, columnsEnv := none, ioctlCols := none, rootUser := false,
    env := trivEnv, walk := ⟨false, [entB3, entA3], [], false⟩ }

/-- A run that encounters nothing at all. -/
def leClean : LsEnv :=
  { isatty := false, columnsEnv := none, ioctlCols := none, rootUser := false,
    env := trivEnv, walk := ⟨false, [], [], false⟩ }

/-- A run whose walk yields one node-error event. -/
def leErr : LsEnv :=
  { isatty := false, columnsEnv := none, ioctlCols := none, rootUser := false,
    env := trivEnv, walk := ⟨false, [], [Event.errEv ['z'] 5], false⟩ }

/-- C3: state persists across `ls_main` invocations, contradicting the
claim and the reset comment of ls.c lines 123-125.  First divergence:
a prior call with `-t` leaves `sortkey = BY_TIME` behind, so a later
flagless call over the same inputs renders a different order than a
fresh flagless call would (ls.c resets the `f_*` flags but not
`sortkey`).  Second divergence: `rval` is never reset, so after a call
that saw an error, an error-free call still returns exit status 1
instead of 0. -/
theorem C3_theorem :
    (ls_main (ls_main initGlob ['t'] 2 leClean).g [] 2 leSort).stdout
      ≠ (ls_main initGlob [] 2 leSort).stdout ∧
    (ls_main (ls_main initGlob [] 2 leErr).g [] 2 leClean).exit = some 1 ∧
    (ls_main initGlob [] 2 leClean).exit = some 0 := by
  refine ⟨by decide, rfl, rfl⟩

end Libls
